import Mathlib

/-!
Verification of the nfp-rsp-stub debug bridge: a shallow embedding of the
RSP server (`src/libs/rsp_server_stub.rs`) and of the RISC-V Debug Module
driver's bounded busy-polls (`src/libs/rfpc_debugger.rs`), together with
theorems settling the frozen claims about framing, register and breakpoint
round-trips, memory routing, no-ack mode and the error paths.

Bytes are modelled as `Nat` values below 256; 64-bit machine arithmetic is
`Nat` with explicit `% 2^64` where overflow matters.  The hardware-facing
leaf modules (`rfpc.rs`, `mem_access.rs`, `xpb_bus.rs`) are absent from the
source tree; their contracts are modelled from the spec and marked so.
-/

namespace NfpRsp

/-! ## Bytes and hex text -/

/-- Little-endian byte decomposition of a value, fixed width
(`width` bytes, least significant first), as produced by viewing a
`u64`/`u32` in host (little-endian) memory order. -/
def toBytesLE : Nat → Nat → List Nat
  | 0, _ => []
  | n + 1, v => v % 256 :: toBytesLE n (v / 256)

/-- Recompose a little-endian byte list into a value. -/
def fromBytesLE : List Nat → Nat
  | [] => 0
  | b :: bs => b + 256 * fromBytesLE bs

/-- Rust `u64::swap_bytes`: reverse the eight bytes of a 64-bit value. -/
def swap_bytes64 (v : Nat) : Nat := fromBytesLE (toBytesLE 8 v).reverse

/-- Rust `u32::swap_bytes`: reverse the four bytes of a 32-bit value. -/
def swap_bytes32 (v : Nat) : Nat := fromBytesLE (toBytesLE 4 v).reverse

/-- Lowercase hex digit character (byte value) for a nibble, as in
Rust `{:x}` formatting. -/
def hexDigitChar (n : Nat) : Nat := if n < 10 then 48 + n else 87 + n

/-- Little-endian nibble decomposition, fixed width. -/
def toNibblesLE : Nat → Nat → List Nat
  | 0, _ => []
  | n + 1, v => v % 16 :: toNibblesLE n (v / 16)

/-- Rust `format!("{:0Wx}", v)` for `v < 16^W`: exactly `W` lowercase hex
digit characters, most significant first. -/
def hexFixed (width v : Nat) : List Nat :=
  (toNibblesLE width v).reverse.map hexDigitChar

/-- Value of one hex digit character, accepting both cases
(as `from_str_radix(_, 16)` does). -/
def hexCharVal? (c : Nat) : Option Nat :=
  if 48 ≤ c ∧ c ≤ 57 then some (c - 48)
  else if 97 ≤ c ∧ c ≤ 102 then some (c - 87)
  else if 65 ≤ c ∧ c ≤ 70 then some (c - 55)
  else none

def parseHexAux : List Nat → Nat → Option Nat
  | [], acc => some acc
  | c :: cs, acc =>
    match hexCharVal? c with
    | some d => if 16 * acc + d < 2 ^ 64 then parseHexAux cs (16 * acc + d) else none
    | none => none

/-- Rust `u64::from_str_radix(s, 16)`: an empty string, a non-hex character
or a value overflowing 64 bits is an error. -/
def from_str_radix16? (s : List Nat) : Option Nat :=
  if s = [] then none else parseHexAux s 0

/-- Big-endian accumulation of nibbles onto an accumulator. -/
def ofNibblesBE (acc : Nat) : List Nat → Nat
  | [] => acc
  | d :: ds => ofNibblesBE (16 * acc + d) ds

/-! ## RSP packet framing (`rsp_server_stub.rs`) -/

/-- `RspServer::calculate_rsp_checksum`: fold of `u8::wrapping_add`
over the data bytes. -/
def calculate_rsp_checksum (data : List Nat) : Nat :=
  data.foldl (fun acc b => (acc + b) % 256) 0

/-- `RspServer::format_rsp_packet`: `$<payload>#<cc>` with `cc` the
checksum as two lowercase hex digits.  (The payload is emitted verbatim;
the outbound path performs no escaping.) -/
def format_rsp_packet (response : List Nat) : List Nat :=
  36 :: response ++ 35 :: hexFixed 2 (calculate_rsp_checksum response)

/-- Inbound unescaping loop of `RspServer::parse_rsp_packet`: a `0x7D`
escape byte makes the following byte be pushed XOR `0x20`; a trailing
lone `0x7D` contributes nothing. -/
def unescape : List Nat → List Nat
  | [] => []
  | b :: rest =>
    if b = 0x7D then
      match rest with
      | [] => []
      | c :: rest2 => (c ^^^ 0x20) :: unescape rest2
    else b :: unescape rest

/-- First loop of `parse_rsp_packet`: discard bytes up to and including
the first `$`; a stream with no `$` ends in a read failure. -/
def dropToDollar : List Nat → Option (List Nat)
  | [] => none
  | b :: rest => if b = 36 then some rest else dropToDollar rest

/-- Second loop of `parse_rsp_packet`: the raw body is everything before
the first `#`; if the stream ends first, the subsequent checksum
`read_exact` fails. -/
def takeBody (s : List Nat) : Option (List Nat × List Nat) :=
  if (s.dropWhile (· ≠ 35)) = [] then none
  else some (s.takeWhile (· ≠ 35), (s.dropWhile (· ≠ 35)).drop 1)

/-- `RspServer::parse_rsp_packet` over a byte stream.  Returns the
unescaped body together with the acknowledgment bytes written to the
stream (`+` on a valid packet when acking is enabled).  The checksum is
computed over the raw (pre-unescape) body bytes; a mismatch is an error,
as is stream exhaustion. -/
def parse_rsp_packet (disable_ack : Bool) (stream : List Nat) :
    Except String (List Nat × List Nat) :=
  match dropToDollar stream with
  | none => .error "failed to fill whole buffer"
  | some s1 =>
    match takeBody s1 with
    | none => .error "failed to fill whole buffer"
    | some (orig, rest) =>
      match rest with
      | c1 :: c2 :: _ =>
        let expected := calculate_rsp_checksum orig
        let received := (from_str_radix16? [c1, c2]).getD 0
        if expected = received then
          .ok (unescape orig, if disable_ack then [] else [43])
        else .error "Checksum mismatch"
      | _ => .error "failed to fill whole buffer"

/-! ## Target hardware model

The leaf modules `rfpc.rs`, `mem_access.rs`, `xpb_bus.rs`, `cpp_bus.rs`
and `expansion_bar.rs` are declared in `lib.rs` but absent from the
source tree, and the Debug Module sits on real hardware; the state they
act on is modelled from the spec (§3, §4.3, §4.5). -/

/-- CPP island selector (`cpp_bus.rs`, absent): only `Rfpc0` is named by
the server's memory-engine calls. -/
inductive CppIsland
  | Rfpc0
  deriving DecidableEq, Repr

/-- Memory type selector of the memory-engine adapter (`mem_access.rs`,
absent). -/
inductive MemoryType
  | Ctm
  deriving DecidableEq, Repr

/-- Memory-engine transaction class (`mem_access.rs`, absent). -/
inductive MuMemoryEngine
  | Atomic32
  | Bulk32
  deriving DecidableEq, Repr

/-- One memory transaction issued by the RSP server, recording the exact
routing arguments: CTM traffic goes through the memory-engine adapter
(`mem_read`/`mem_write`), everything else through the DM memory routines
of `rfpc_debugger.rs`. -/
inductive MemAccess
  | memRead (island : CppIsland) (mt : MemoryType) (eng : MuMemoryEngine) (addr n : Nat)
  | memWrite (island : CppIsland) (mt : MemoryType) (eng : MuMemoryEngine)
      (addr : Nat) (ws : List Nat)
  | dbgRead (addr n : Nat)
  | dbgWrite (addr : Nat) (ws : List Nat)
  deriving DecidableEq, Repr

/-- Modelled from the spec: the target state behind the absent leaf
modules — CTM as an array of 32-bit words (§4.5), DM-routed memory as
64-bit words (§4.3), and the hart's register file indexed by
abstract-command register number (§3). -/
structure Target where
  ctm : Nat → Nat
  dm : Nat → Nat
  regs : Nat → Nat

/-- Pointwise store update. -/
def storeAt (m : Nat → Nat) (a v : Nat) : Nat → Nat :=
  fun x => if x = a then v else m x

/-- Store a list of words at consecutive addresses with the given stride. -/
def storeWords : (Nat → Nat) → Nat → Nat → List Nat → (Nat → Nat)
  | m, _, _, [] => m
  | m, a, step, w :: ws => storeWords (storeAt m a w) (a + step) step ws

/-- Modelled from the spec: `mem_read` of the memory-engine adapter
(`mem_access.rs` absent from src/) — `n` 32-bit CTM words starting at the
byte address (§4.5). -/
def mem_read (t : Target) (addr n : Nat) : List Nat :=
  (List.range n).map fun i => t.ctm (addr + 4 * i) % 2 ^ 32

/-- Modelled from the spec: `mem_write` of the memory-engine adapter
(`mem_access.rs` absent from src/) — stores 32-bit words at consecutive
word addresses (§4.5). -/
def mem_write (t : Target) (addr : Nat) (ws : List Nat) : Target :=
  { t with ctm := storeWords t.ctm addr 4 (ws.map (· % 2 ^ 32)) }

/-- Modelled from the spec: net effect of `rfpc_dbg_read_memory`
(§4.3) — `len` 64-bit words loaded from byte addresses `addr + 8*i`
through the program buffer.  The DM transaction sequence itself lives in
`rfpc_debugger.rs`; its hart-side semantics are hardware. -/
def rfpc_dbg_read_memory (t : Target) (addr len : Nat) : List Nat :=
  (List.range len).map fun i => t.dm (addr + 8 * i) % 2 ^ 64

/-- Modelled from the spec: net effect of `rfpc_dbg_write_memory` (§4.3). -/
def rfpc_dbg_write_memory (t : Target) (addr : Nat) (ws : List Nat) : Target :=
  { t with dm := storeWords t.dm addr 8 (ws.map (· % 2 ^ 64)) }

/-- Modelled from the spec: net effect of `rfpc_dbg_read_reg` (§4.3) —
the 64-bit register selected by the abstract-command register number. -/
def rfpc_dbg_read_reg (t : Target) (regAddr : Nat) : Nat :=
  t.regs regAddr % 2 ^ 64

/-- Modelled from the spec: net effect of `rfpc_dbg_write_reg` (§4.3). -/
def rfpc_dbg_write_reg (t : Target) (regAddr v : Nat) : Target :=
  { t with regs := storeAt t.regs regAddr (v % 2 ^ 64) }

/-- Modelled from the spec: GPR `Xi` carries abstract-command register
number `0x1000 + i` (`rfpc.rs` absent from src/; §3 fixes bit 12 set for
GPRs, and `write_gprs` addresses GPRs as `X0.reg_addr() + i`). -/
def gprRegAddr (i : Nat) : Nat := 0x1000 + i

/-- Modelled from the spec: abstract-command register numbers of the §3
CSR enumeration in order (`rfpc.rs` absent from src/; bit 12 clear for
CSRs).  The values follow the RISC-V CSR address map; the two
implementation-specific CSRs `Mlmemprot`/`Mafstatus` are given a custom
consecutive pair.  No claim depends on the concrete numbers, only on the
indexing being the §3 order. -/
def csrRegAddrs : List Nat :=
  [0x300, 0x301, 0x302, 0x303, 0x304, 0x305,
   0x340, 0x341, 0x342, 0x343, 0x344,
   0x7B0, 0x7B1, 0x7B2, 0x7B3,
   0x7C0, 0x7C1,
   0xB00, 0xB02,
   0xC00, 0xC01, 0xC02,
   0xF11, 0xF12, 0xF13, 0xF14]

/-- `RfpcCsr::Dpc.reg_addr()`. -/
def dpcRegAddr : Nat := 0x7B1

/-- `RfpcCsr::Dcsr.reg_addr()`. -/
def dcsrRegAddr : Nat := 0x7B0

/-! ## Debug-module busy-polls (`rfpc_debugger.rs`)

The bounded busy-waits poll a status register every 100 ms until a bit
condition holds, and `panic!` when the deadline expires.  The successive
hardware samples are an oracle `Nat → Nat`; the deadline is the `fuel`
of remaining polls.  A timeout is an `Except.error` carrying the panic
message — the process terminates, no RSP reply is produced. -/

def RISCV_DBG_DMSTATUS_ALLHALTED : Nat := 1 <<< 9

def RISCV_DBG_DMSTATUS_ALLRUNNING : Nat := 1 <<< 11

def RISCV_DBG_ABSTRACTCS_BUSY : Nat := 1 <<< 12

def RISCV_DBG_DCSR_STEP : Nat := 1 <<< 2

def RISCV_DBG_DCSR_EBREAKM : Nat := 1 <<< 15

def RISCV_DBG_DCSR_EBREAKU : Nat := 1 <<< 12

/-- Poll loop of `rfpc_dbg_halt`: read `dmstatus` until `ALLHALTED`;
on deadline expiry the source panics. -/
def rfpc_dbg_halt_poll (dmstatus : Nat → Nat) : Nat → Nat → Except String Unit
  | _, 0 =>
    .error "Timeout reached when waiting for RFPC core to halt after halt initiate!"
  | i, fuel + 1 =>
    if dmstatus i &&& RISCV_DBG_DMSTATUS_ALLHALTED ≠ 0 then .ok ()
    else rfpc_dbg_halt_poll dmstatus (i + 1) fuel

/-- Poll loop of `rfpc_dbg_resume`: read `dmstatus` until `ALLRUNNING`. -/
def rfpc_dbg_resume_poll (dmstatus : Nat → Nat) : Nat → Nat → Except String Unit
  | _, 0 =>
    .error "Timeout reached when trying to resume RFPC core after resume initiate!"
  | i, fuel + 1 =>
    if dmstatus i &&& RISCV_DBG_DMSTATUS_ALLRUNNING ≠ 0 then .ok ()
    else rfpc_dbg_resume_poll dmstatus (i + 1) fuel

/-- `abstract_cmd_busy_wait`: read `abstractcs` until `BUSY` clears. -/
def abstract_cmd_busy_wait (abstractcs : Nat → Nat) : Nat → Nat → Except String Unit
  | _, 0 => .error "Timeout reached in rfpc_dbg_abstractcmd()!"
  | i, fuel + 1 =>
    if abstractcs i &&& RISCV_DBG_ABSTRACTCS_BUSY = 0 then .ok ()
    else abstract_cmd_busy_wait abstractcs (i + 1) fuel

/-- Poll loop shared by `rfpc_dbg_single_step` and `rfpc_dbg_continue`:
read `dmstatus` until `ALLHALTED` (40 s deadline for continue). -/
def rfpc_dbg_step_poll (dmstatus : Nat → Nat) : Nat → Nat → Except String Unit
  | _, 0 => .error "Timeout reached when wating for RFPC core halt after step!"
  | i, fuel + 1 =>
    if dmstatus i &&& RISCV_DBG_DMSTATUS_ALLHALTED ≠ 0 then .ok ()
    else rfpc_dbg_step_poll dmstatus (i + 1) fuel

/-- Modelled from the spec: net effect of `rfpc_dbg_single_step` on the
visible register state — set `dcsr.STEP`, resume, and clear `STEP` on
the halted hart (§4.3); the hart-side cause update is hardware. -/
def rfpc_dbg_single_step (t : Target) : Target :=
  let d0 := rfpc_dbg_read_reg t dcsrRegAddr
  let t1 := rfpc_dbg_write_reg t dcsrRegAddr (d0 ||| RISCV_DBG_DCSR_STEP)
  let d1 := rfpc_dbg_read_reg t1 dcsrRegAddr
  rfpc_dbg_write_reg t1 dcsrRegAddr
    (d1 &&& (0xFFFFFFFFFFFFFFFF ^^^ RISCV_DBG_DCSR_STEP))

/-- Modelled from the spec: net effect of `rfpc_dbg_continue` on the
visible register state — set `dcsr.EBREAKM|EBREAKU`, resume, and clear
them on the halted hart (§4.3). -/
def rfpc_dbg_continue (t : Target) : Target :=
  let d0 := rfpc_dbg_read_reg t dcsrRegAddr
  let t1 := rfpc_dbg_write_reg t dcsrRegAddr
    (d0 ||| (RISCV_DBG_DCSR_EBREAKM ||| RISCV_DBG_DCSR_EBREAKU))
  let d1 := rfpc_dbg_read_reg t1 dcsrRegAddr
  rfpc_dbg_write_reg t1 dcsrRegAddr
    (d1 &&& (0xFFFFFFFFFFFFFFFF ^^^ (RISCV_DBG_DCSR_EBREAKM ||| RISCV_DBG_DCSR_EBREAKU)))

/-! ## RSP server state and handlers (`rsp_server_stub.rs`) -/

/-- ASCII bytes of a string literal. -/
def strBytes (s : String) : List Nat := s.data.map Char.toNat

/-- The mutable fields of `RspServer`: the breakpoint cache
(`HashMap<u64, u64>` as an association list without duplicate keys), the
ack flag, the client feature stores, and the target hardware behind the
expansion BAR.  The dispatch table and the server feature lists are
constants fixed in `RspServer::new` and live as definitions below. -/
structure RspState where
  breakpoints : List (Nat × Nat)
  disable_ack : Bool
  client_kv_support : List (List Nat × List Nat)
  client_v_support : List (List Nat)
  target : Target

/-- `HashMap::get` on the breakpoint cache. -/
def bpLookup : List (Nat × Nat) → Nat → Option Nat
  | [], _ => none
  | (k, v) :: rest, a => if k = a then some v else bpLookup rest a

/-- `HashMap::insert` (replaces an existing key). -/
def bpInsert : List (Nat × Nat) → Nat → Nat → List (Nat × Nat)
  | [], a, v => [(a, v)]
  | (k, w) :: rest, a, v =>
    if k = a then (a, v) :: rest else (k, w) :: bpInsert rest a v

/-- `HashMap::remove`. -/
def bpRemove : List (Nat × Nat) → Nat → List (Nat × Nat)
  | [], _ => []
  | (k, w) :: rest, a => if k = a then rest else (k, w) :: bpRemove rest a

/-- `str::split` on a separator byte. -/
def splitOnByte (sep : Nat) : List Nat → List (List Nat)
  | [] => [[]]
  | b :: rest =>
    match splitOnByte sep rest with
    | [] => [[]]
    | cur :: done => if b = sep then [] :: cur :: done else (b :: cur) :: done

/-- `HashMap::insert` on the client key→value feature store. -/
def kvSet : List (List Nat × List Nat) → List Nat → List Nat → List (List Nat × List Nat)
  | [], k, v => [(k, v)]
  | (k0, v0) :: rest, k, v =>
    if k0 = k then (k, v) :: rest else (k0, v0) :: kvSet rest k v

/-- `Iterator::position` on a byte list: index of the first occurrence. -/
def position? (x : Nat) : List Nat → Option Nat
  | [] => none
  | b :: rest => if b = x then some 0 else (position? x rest).map (· + 1)

/-- A handler's outcome: the reply bytes, the successor state, and the
memory transactions issued.  `Except.error` is a Rust `panic!` (or
`expect`/`unwrap` failure): the process dies and no reply is sent. -/
abbrev HandlerResult := Except String (List Nat × RspState × List MemAccess)

/-- `RspServer::cmd_not_supported`: empty reply. -/
def cmd_not_supported (st : RspState) : HandlerResult :=
  .ok ([], st, [])

/-- One register formatted for the `g` reply: 16 hex chars, byte-swapped. -/
def gRegHex (t : Target) (r : Nat) : List Nat :=
  hexFixed 16 (swap_bytes64 (rfpc_dbg_read_reg t r))

/-- A contiguous inclusive `reg_addr` range of the `g` reply. -/
def gRangeHex (t : Target) (base n : Nat) : List Nat :=
  ((List.range n).map (fun i => gRegHex t (base + i))).flatten

/-- `RspServer::read_gprs`: all GPRs then the CSR blocks, iterated over
the inclusive `reg_addr` ranges exactly as in the source. -/
def read_gprs (st : RspState) : HandlerResult :=
  .ok (gRangeHex st.target 0x1000 32 ++ gRangeHex st.target 0x300 6 ++
       gRangeHex st.target 0x340 5 ++ gRangeHex st.target 0x7B0 4 ++
       gRangeHex st.target 0x7C0 2 ++ gRegHex st.target 0xB00 ++
       gRegHex st.target 0xB02 ++ gRangeHex st.target 0xC00 3 ++
       gRangeHex st.target 0xF11 4, st, [])

/-- `RspServer::read_reg` (`p<hex>`): index `0..31` selects a GPR,
`32..57` a CSR in the §3 order; anything else panics
("Invalid register address"). -/
def read_reg (st : RspState) (packet : List Nat) : HandlerResult :=
  match from_str_radix16? (packet.drop 1) with
  | none => .error "Failed to parse address as u64"
  | some address =>
    if address < 32 then
      .ok (hexFixed 16 (swap_bytes64 (rfpc_dbg_read_reg st.target (gprRegAddr address))),
           st, [])
    else if address < 32 + csrRegAddrs.length then
      .ok (hexFixed 16 (swap_bytes64
             (rfpc_dbg_read_reg st.target (csrRegAddrs.getD (address - 32) 0))),
           st, [])
    else .error "Invalid register address"

/-- `RspServer::write_reg` (`P<hex>=<hex>`): the parsed value is
byte-swapped before being written. -/
def write_reg (st : RspState) (packet : List Nat) : HandlerResult :=
  match position? 61 packet with
  | none => .error "called Option::unwrap on a None value"
  | some eqIdx =>
    match from_str_radix16? ((packet.take eqIdx).drop 1) with
    | none => .error "Failed to parse address as u8"
    | some address =>
      match from_str_radix16? (packet.drop (eqIdx + 1)) with
      | none => .error "Failed to parse value as u64"
      | some rawVal =>
        let value := swap_bytes64 rawVal
        if address < 32 then
          .ok (strBytes "OK",
            { st with target := rfpc_dbg_write_reg st.target (gprRegAddr address) value },
            [])
        else if address < 32 + csrRegAddrs.length then
          .ok (strBytes "OK",
            { st with target :=
                rfpc_dbg_write_reg st.target (csrRegAddrs.getD (address - 32) 0) value },
            [])
        else .error "Invalid register address"

/-- `RspServer::set_core` (`H…`): single-hart stub. -/
def set_core (st : RspState) (_packet : List Nat) : HandlerResult :=
  .ok (strBytes "OK", st, [])

/-- `RspServer::single_step` (`s[<addr>]`): optionally write `dpc`,
then single-step. -/
def single_step (st : RspState) (packet : List Nat) : HandlerResult :=
  if packet.length > 1 then
    match from_str_radix16? (packet.drop 1) with
    | none => .error "Failed to parse address as u64"
    | some address =>
      let t1 := rfpc_dbg_write_reg st.target dpcRegAddr address
      .ok (strBytes "S05", { st with target := rfpc_dbg_single_step t1 }, [])
  else
    .ok (strBytes "S05", { st with target := rfpc_dbg_single_step st.target }, [])

/-- `RspServer::single_step_sig` (`S…`): signal ignored. -/
def single_step_sig (st : RspState) : HandlerResult :=
  .ok (strBytes "S05", { st with target := rfpc_dbg_single_step st.target }, [])

/-- `RspServer::cont` (`c[<addr>]`). -/
def cont (st : RspState) (packet : List Nat) : HandlerResult :=
  if packet.length > 1 then
    match from_str_radix16? (packet.drop 1) with
    | none => .error "Failed to parse address as u64"
    | some address =>
      let t1 := rfpc_dbg_write_reg st.target dpcRegAddr address
      .ok (strBytes "S05", { st with target := rfpc_dbg_continue t1 }, [])
  else
    .ok (strBytes "S05", { st with target := rfpc_dbg_continue st.target }, [])

/-- `RspServer::cont_with_sig` (`C…`). -/
def cont_with_sig (st : RspState) (_packet : List Nat) : HandlerResult :=
  .ok (strBytes "S05", { st with target := rfpc_dbg_continue st.target }, [])

/-- `RspServer::set_breakpoint` (`Z0,<addr>,<kind>`): read one original
word (CTM or DM routed by address bits [51:48]), cache it under the full
64-bit address, and patch an `ebreak`. -/
def set_breakpoint (st : RspState) (packet : List Nat) : HandlerResult :=
  let info := packet.drop 3
  let addrStr := info.takeWhile (· ≠ 44)
  match from_str_radix16? addrStr with
  | none => .error "Failed to parse address as u64"
  | some address =>
    let write_ctm := (address >>> 48) &&& 0xF = 1
    let masked_address := address &&& 0x00000000FFFFFFFF
    if write_ctm then
      let riscv_instr := mem_read st.target masked_address 1
      let orig := riscv_instr.getD 0 0
      .ok (strBytes "OK",
        { st with breakpoints := bpInsert st.breakpoints address orig,
                  target := mem_write st.target masked_address [0x00100073] },
        [.memRead .Rfpc0 .Ctm .Atomic32 masked_address 1,
         .memWrite .Rfpc0 .Ctm .Atomic32 masked_address [0x00100073]])
    else
      let riscv_instr := rfpc_dbg_read_memory st.target masked_address 1
      let orig := riscv_instr.getD 0 0
      let bp_instr := (orig &&& 0xFFFFFFFF00000000) ||| 0x0000000000100073
      .ok (strBytes "OK",
        { st with breakpoints := bpInsert st.breakpoints address orig,
                  target := rfpc_dbg_write_memory st.target masked_address [bp_instr] },
        [.dbgRead masked_address 1, .dbgWrite masked_address [bp_instr]])

/-- `RspServer::clear_breakpoint` (`z0,<addr>,<kind>`): look up the cached
word (panicking when absent), remove the entry and write the word back. -/
def clear_breakpoint (st : RspState) (packet : List Nat) : HandlerResult :=
  let info := packet.drop 3
  let addrStr := info.takeWhile (· ≠ 44)
  match from_str_radix16? addrStr with
  | none => .error "Failed to parse address as u64"
  | some address =>
    match bpLookup st.breakpoints address with
    | none => .error "Breakpoint address not found in the cache!"
    | some instr =>
      let st1 := { st with breakpoints := bpRemove st.breakpoints address }
      let write_ctm := (address >>> 48) &&& 0xF = 1
      let masked_address := address &&& 0x00000000FFFFFFFF
      if write_ctm then
        .ok (strBytes "OK",
          { st1 with target := mem_write st1.target masked_address [instr % 2 ^ 32] },
          [.memWrite .Rfpc0 .Ctm .Atomic32 masked_address [instr % 2 ^ 32]])
      else
        .ok (strBytes "OK",
          { st1 with target := rfpc_dbg_write_memory st1.target masked_address [instr] },
          [.dbgWrite masked_address [instr]])

/-- `bytemuck::cast_slice::<u8, u32>` on a little-endian host: 4-byte
little-endian chunks. -/
def bytesToWords32 : List Nat → List Nat
  | b0 :: b1 :: b2 :: b3 :: rest => fromBytesLE [b0, b1, b2, b3] :: bytesToWords32 rest
  | _ => []

/-- `bytemuck::cast_slice::<u8, u64>` on a little-endian host: 8-byte
little-endian chunks. -/
def bytesToWords64 : List Nat → List Nat
  | b0 :: b1 :: b2 :: b3 :: b4 :: b5 :: b6 :: b7 :: rest =>
    fromBytesLE [b0, b1, b2, b3, b4, b5, b6, b7] :: bytesToWords64 rest
  | _ => []

/-- `RspServer::memory_write` (`M<addr>,<len>:<data>` / `X…`): a zero
length returns `OK` with no access; otherwise the data after the colon is
zero-padded to a multiple of 8 bytes (when `len % 8 ≠ 0`) and written as
32-bit CTM words or 64-bit DM words according to address bits [51:48]. -/
def memory_write (st : RspState) (packet : List Nat) : HandlerResult :=
  match position? 58 packet with
  | none => .error "called Option::unwrap on a None value"
  | some colonIdx =>
    let info := (packet.take colonIdx).drop 1
    if info.any (· = 44) then
      let addrStr := info.takeWhile (· ≠ 44)
      let lenStr := (info.dropWhile (· ≠ 44)).drop 1
      match from_str_radix16? addrStr with
      | none => .error "Failed to parse address as u64"
      | some address =>
        match from_str_radix16? lenStr with
        | none => .error "Failed to parse address as u64"
        | some length =>
          if length = 0 then .ok (strBytes "OK", st, [])
          else
            let write_ctm := (address >>> 48) &&& 0xF = 1
            let addr := address &&& 0x00000000FFFFFFFF
            let packet_data := packet.drop (colonIdx + 1)
            let remainder := length % 8
            let padded :=
              if remainder = 0 then packet_data
              else packet_data ++ List.replicate (8 - remainder) 0
            if write_ctm then
              if padded.length % 4 = 0 then
                let program_data := bytesToWords32 padded
                .ok (strBytes "OK",
                  { st with target := mem_write st.target addr program_data },
                  [.memWrite .Rfpc0 .Ctm .Bulk32 addr program_data])
              else .error "bytemuck cast_slice: size mismatch"
            else
              if padded.length % 8 = 0 then
                let program_data := bytesToWords64 padded
                .ok (strBytes "OK",
                  { st with target := rfpc_dbg_write_memory st.target addr program_data },
                  [.dbgWrite addr program_data])
              else .error "bytemuck cast_slice: size mismatch"
    else .error "called Option::unwrap on a None value"

/-- `RspServer::memory_read` (`m<addr>,<len>`): CTM reads fetch
`(len+3)/4` 32-bit words and byte-swap each before hex emission; DM reads
fetch `(len+7)/8` 64-bit words emitted as raw little-endian bytes; both
truncate to the requested byte length. -/
def memory_read (st : RspState) (packet : List Nat) : HandlerResult :=
  if packet.any (· = 44) then
    let addrPart := packet.takeWhile (· ≠ 44)
    let lenStr := (packet.dropWhile (· ≠ 44)).drop 1
    match from_str_radix16? (addrPart.drop 1) with
    | none => .error "Failed to parse address as u64"
    | some address =>
      match from_str_radix16? lenStr with
      | none => .error "Failed to parse length as u64"
      | some length =>
        let read_ctm := (address >>> 48) &&& 0xF = 1
        let addr := address &&& 0x00000000FFFFFFFF
        if read_ctm then
          let word_len := (length + 3) / 4
          let read_words := mem_read st.target addr word_len
          let read_bytes := ((read_words.map swap_bytes32).map (toBytesLE 4)).flatten.take length
          .ok ((read_bytes.map (hexFixed 2)).flatten, st,
               [.memRead .Rfpc0 .Ctm .Bulk32 addr word_len])
        else
          let word_len := (length + 7) / 8
          let read_qwords := rfpc_dbg_read_memory st.target addr word_len
          let read_bytes := (read_qwords.map (toBytesLE 8)).flatten.take length
          .ok ((read_bytes.map (hexFixed 2)).flatten, st, [.dbgRead addr word_len])
  else .error "called Option::unwrap on a None value"

/-- `RspServer::load_offsets`. -/
def load_offsets (st : RspState) : HandlerResult :=
  .ok (strBytes "Text=000;Data=000;Bss=000", st, [])

/-- `RspServer::supported_features` (`qSupported:…`): record the client's
features; reply with the server's (fixed in `RspServer::new`: the
`PacketSize` pair followed by the value features). -/
def supported_features (st : RspState) (packet : List Nat) : HandlerResult :=
  match position? 58 packet with
  | none => .error "called Option::unwrap on a None value"
  | some colonIdx =>
    let args := packet.drop (colonIdx + 1)
    let feats := splitOnByte 59 args
    let st' := feats.foldl (fun s f =>
      match position? 61 f with
      | some ei =>
        { s with client_kv_support := kvSet s.client_kv_support (f.take ei) (f.drop (ei + 1)) }
      | none => { s with client_v_support := s.client_v_support ++ [f] }) st
    .ok (strBytes "PacketSize=100000;qMemoryRead+;swbreak+", st', [])

/-- `RspServer::toggle_ack` (`QStartNoAckMode`): set `disable_ack`
(only ever from `false` to `true`). -/
def toggle_ack (st : RspState) : HandlerResult :=
  .ok (strBytes "OK",
       if st.disable_ack then st else { st with disable_ack := true }, [])

/-! ## Dispatch (`RspServer::new` table and `handle_packet`) -/

/-- The three behaviors a dispatch-table entry can have. -/
inductive FuncType
  | Ascii (resp : List Nat)
  | NoArg (f : RspState → HandlerResult)
  | WithArg (f : RspState → List Nat → HandlerResult)

/-- The dispatch table built in `RspServer::new`, after the duplicate
inserts have been resolved (`H`, `c` and `D` are inserted twice; the last
insert wins in a `HashMap`). -/
def cmd_resp_map : List (List Nat × Option FuncType) :=
  [ (strBytes "!", some (.NoArg cmd_not_supported)),
    (strBytes "?", some (.Ascii (strBytes "S12"))),
    (strBytes "QStartNoAckMode", some (.NoArg toggle_ack)),
    (strBytes "qC", some (.Ascii (strBytes "-1"))),
    (strBytes "qOffsets", some (.NoArg load_offsets)),
    (strBytes "qSupported", some (.WithArg supported_features)),
    (strBytes "qAttached", some (.Ascii (strBytes "1"))),
    (strBytes "H", some (.WithArg set_core)),
    (strBytes "g", some (.NoArg read_gprs)),
    (strBytes "p", some (.WithArg read_reg)),
    (strBytes "P", some (.WithArg write_reg)),
    (strBytes "m", some (.WithArg memory_read)),
    (strBytes "M", some (.WithArg memory_write)),
    (strBytes "s", some (.WithArg single_step)),
    (strBytes "S", some (.NoArg single_step_sig)),
    (strBytes "c", some (.WithArg cont)),
    (strBytes "D", some (.Ascii (strBytes "detach"))),
    (strBytes "Z0", some (.WithArg set_breakpoint)),
    (strBytes "z0", some (.WithArg clear_breakpoint)),
    ([3], none),
    (strBytes "k", none),
    (strBytes "C", some (.WithArg cont_with_sig)),
    (strBytes "vMustReplyEmpty", some (.NoArg cmd_not_supported)),
    (strBytes "X", some (.WithArg memory_write)) ]

/-- Run one dispatch-table entry; `none` entries are silent. -/
def runEntry (st : RspState) (packet : List Nat) :
    Option FuncType → Except String (Option (List Nat) × RspState × List MemAccess)
  | none => .ok (none, st, [])
  | some (.Ascii r) => .ok (some r, st, [])
  | some (.NoArg f) => (f st).map fun x => (some x.1, x.2.1, x.2.2)
  | some (.WithArg f) => (f st packet).map fun x => (some x.1, x.2.1, x.2.2)

/-- Exact-key lookup. -/
def findEntry (cmd : List Nat) : List (List Nat × Option FuncType) → Option (Option FuncType)
  | [] => none
  | (k, e) :: rest => if k = cmd then some e else findEntry cmd rest

/-- Prefix-key scan.  The source iterates `HashMap` entries in arbitrary
order; the table's keys are mutually prefix-free, so at most one key can
be a prefix of a given command and the iteration order is immaterial. -/
def findEntryPre (cmd : List Nat) : List (List Nat × Option FuncType) → Option (Option FuncType)
  | [] => none
  | (k, e) :: rest => if k.isPrefixOf cmd then some e else findEntryPre cmd rest

/-- `RspServer::handle_packet`: the command is the packet up to the first
colon; exact match first, then prefix match, else the empty
"unsupported" reply. -/
def handle_packet (st : RspState) (packet : List Nat) :
    Except String (Option (List Nat) × RspState × List MemAccess) :=
  let ci := (position? 58 packet).getD packet.length
  let cmd := packet.take ci
  match findEntry cmd cmd_resp_map with
  | some e => runEntry st packet e
  | none =>
    match findEntryPre cmd cmd_resp_map with
    | some e => runEntry st packet e
    | none => .ok (some [], st, [])

/-! ## Connection loop (`RspServer::run`) -/

/-- One iteration of the inner packet loop of `RspServer::run` on one
inbound frame.  Returns the successor state, the acknowledgment bytes
(`+`/`-`) written, the reply packet bytes written, and whether the loop
breaks (detach).  A checksum or I/O failure of the parser sends `-`
(when acking) and keeps the connection; a handler panic kills the
process (`Except.error`). -/
def rsp_serve_one (st : RspState) (stream : List Nat) :
    Except String (RspState × List Nat × List Nat × Bool) :=
  match parse_rsp_packet st.disable_ack stream with
  | .error _ => .ok (st, (if st.disable_ack then [] else [45]), [], false)
  | .ok (packet, ackBytes) =>
    match handle_packet st packet with
    | .error e => .error e
    | .ok (none, st', _) => .ok (st', ackBytes, [], false)
    | .ok (some resp, st', _) =>
      if resp = strBytes "detach" then
        .ok (st', ackBytes, format_rsp_packet (strBytes "OK"), true)
      else
        .ok (st', ackBytes, format_rsp_packet resp, false)

/-- The packet loop over a sequence of inbound frames: stops on detach or
on a handler panic (the process dies; nothing further is emitted).
Returns the final state and the acknowledgment bytes emitted per frame. -/
def rsp_serve : RspState → List (List Nat) → RspState × List (List Nat)
  | st, [] => (st, [])
  | st, f :: fs =>
    match rsp_serve_one st f with
    | .error _ => (st, [])
    | .ok (st', ack, _sent, detach) =>
      if detach then (st', [ack])
      else
        let rest := rsp_serve st' fs
        (rest.1, ack :: rest.2)

/-! ## Concrete fixtures used by closed theorems and witnesses -/

/-- A concrete target whose stores are all zero. -/
def t0 : Target := ⟨fun _ => 0, fun _ => 0, fun _ => 0⟩

/-- A fresh server state over `t0`, as after `RspServer::new`. -/
def st0 : RspState := ⟨[], false, [], [], t0⟩

/-- The zero padding `memory_write` applies to the payload: up to a
multiple of 8 bytes whenever the requested length is not already one. -/
def padTo8 (len : Nat) (data : List Nat) : List Nat :=
  if len % 8 = 0 then data else data ++ List.replicate (8 - len % 8) 0

/-- Following the claim's words: a CTM write of `len` bytes should issue
`len` rounded up to the 32-bit word size, i.e. `(len + 3) / 4` words. -/
def claimedCtmWriteWordCount (len : Nat) : Nat := (len + 3) / 4

/-- A concrete target with distinctive CTM and DM contents. -/
def t1 : Target := ⟨fun _ => 0x11112222, fun _ => 0x1122334455667788, fun _ => 0⟩

/-! ## Theorems -/

/-! ### Lemmas about the byte and hex codecs -/

theorem toBytesLE_length (n v : Nat) : (toBytesLE n v).length = n := by
  induction n generalizing v with
  | zero => rfl
  | succ n ih => simp [toBytesLE, ih]

theorem toBytesLE_lt (n v : Nat) : ∀ b ∈ toBytesLE n v, b < 256 := by
  induction n generalizing v with
  | zero => intro b hb; simp [toBytesLE] at hb
  | succ n ih =>
    intro b hb
    simp only [toBytesLE, List.mem_cons] at hb
    rcases hb with rfl | hb
    · exact Nat.mod_lt _ (by norm_num)
    · exact ih _ b hb

theorem fromBytesLE_toBytesLE (n v : Nat) :
    fromBytesLE (toBytesLE n v) = v % 256 ^ n := by
  induction n generalizing v with
  | zero => simp [toBytesLE, fromBytesLE, Nat.mod_one]
  | succ n ih =>
    simp only [toBytesLE, fromBytesLE, ih]
    rw [pow_succ, mul_comm (256 ^ n) 256, Nat.mod_mul]

theorem fromBytesLE_lt (l : List Nat) (h : ∀ b ∈ l, b < 256) :
    fromBytesLE l < 256 ^ l.length := by
  induction l with
  | nil => simp [fromBytesLE]
  | cons b bs ih =>
    have hb : b < 256 := h b (by simp)
    have hr : fromBytesLE bs < 256 ^ bs.length := ih (fun x hx => h x (by simp [hx]))
    simp only [fromBytesLE, List.length_cons, pow_succ]
    calc b + 256 * fromBytesLE bs
        ≤ 255 + 256 * fromBytesLE bs := by omega
      _ < 256 * (fromBytesLE bs + 1) := by omega
      _ ≤ 256 * 256 ^ bs.length := by
          exact Nat.mul_le_mul_left 256 (by omega)
      _ = 256 ^ bs.length * 256 := by ring

theorem toBytesLE_fromBytesLE (l : List Nat) (h : ∀ b ∈ l, b < 256) :
    toBytesLE l.length (fromBytesLE l) = l := by
  induction l with
  | nil => rfl
  | cons b bs ih =>
    have hb : b < 256 := h b (by simp)
    simp only [List.length_cons, toBytesLE, fromBytesLE]
    have hmod : (b + 256 * fromBytesLE bs) % 256 = b := by omega
    have hdiv : (b + 256 * fromBytesLE bs) / 256 = fromBytesLE bs := by omega
    rw [hmod, hdiv, ih (fun x hx => h x (by simp [hx]))]

theorem swap_bytes64_lt (v : Nat) : swap_bytes64 v < 2 ^ 64 := by
  have h := fromBytesLE_lt (toBytesLE 8 v).reverse
    (by intro b hb; exact toBytesLE_lt 8 v b (List.mem_reverse.mp hb))
  simpa [swap_bytes64, toBytesLE_length] using h

theorem swap_bytes32_lt (v : Nat) : swap_bytes32 v < 2 ^ 32 := by
  have h := fromBytesLE_lt (toBytesLE 4 v).reverse
    (by intro b hb; exact toBytesLE_lt 4 v b (List.mem_reverse.mp hb))
  simpa [swap_bytes32, toBytesLE_length] using h

theorem swap_bytes64_swap_bytes64 (v : Nat) (hv : v < 2 ^ 64) :
    swap_bytes64 (swap_bytes64 v) = v := by
  have hlen : (toBytesLE 8 v).reverse.length = 8 := by
    simp [toBytesLE_length]
  have hbytes : ∀ b ∈ (toBytesLE 8 v).reverse, b < 256 := by
    intro b hb; exact toBytesLE_lt 8 v b (List.mem_reverse.mp hb)
  have h1 : toBytesLE 8 (fromBytesLE (toBytesLE 8 v).reverse) = (toBytesLE 8 v).reverse := by
    have := toBytesLE_fromBytesLE (toBytesLE 8 v).reverse hbytes
    rwa [hlen] at this
  unfold swap_bytes64
  rw [h1, List.reverse_reverse, fromBytesLE_toBytesLE]
  have : (256 : Nat) ^ 8 = 2 ^ 64 := by norm_num
  rw [this]
  exact Nat.mod_eq_of_lt hv

theorem swap_bytes32_swap_bytes32 (v : Nat) (hv : v < 2 ^ 32) :
    swap_bytes32 (swap_bytes32 v) = v := by
  have hlen : (toBytesLE 4 v).reverse.length = 4 := by
    simp [toBytesLE_length]
  have hbytes : ∀ b ∈ (toBytesLE 4 v).reverse, b < 256 := by
    intro b hb; exact toBytesLE_lt 4 v b (List.mem_reverse.mp hb)
  have h1 : toBytesLE 4 (fromBytesLE (toBytesLE 4 v).reverse) = (toBytesLE 4 v).reverse := by
    have := toBytesLE_fromBytesLE (toBytesLE 4 v).reverse hbytes
    rwa [hlen] at this
  unfold swap_bytes32
  rw [h1, List.reverse_reverse, fromBytesLE_toBytesLE]
  have : (256 : Nat) ^ 4 = 2 ^ 32 := by norm_num
  rw [this]
  exact Nat.mod_eq_of_lt hv

theorem toNibblesLE_lt (n v : Nat) : ∀ d ∈ toNibblesLE n v, d < 16 := by
  induction n generalizing v with
  | zero => intro d hd; simp [toNibblesLE] at hd
  | succ n ih =>
    intro d hd
    simp only [toNibblesLE, List.mem_cons] at hd
    rcases hd with rfl | hd
    · exact Nat.mod_lt _ (by norm_num)
    · exact ih _ d hd

theorem toNibblesLE_length (n v : Nat) : (toNibblesLE n v).length = n := by
  induction n generalizing v with
  | zero => rfl
  | succ n ih => simp [toNibblesLE, ih]

theorem ofNibblesBE_append (acc : Nat) (l : List Nat) (d : Nat) :
    ofNibblesBE acc (l ++ [d]) = 16 * ofNibblesBE acc l + d := by
  induction l generalizing acc with
  | nil => rfl
  | cons x xs ih =>
    simp only [List.cons_append, ofNibblesBE]
    exact ih _

theorem ofNibblesBE_reverse_toNibblesLE (w v : Nat) (hv : v < 16 ^ w) :
    ofNibblesBE 0 (toNibblesLE w v).reverse = v := by
  induction w generalizing v with
  | zero =>
    interval_cases v
    rfl
  | succ w ih =>
    simp only [toNibblesLE, List.reverse_cons, ofNibblesBE_append]
    rw [ih (v / 16) (by
      have : 16 ^ (w + 1) = 16 ^ w * 16 := by ring
      omega)]
    omega

theorem ofNibblesBE_ge (acc : Nat) (l : List Nat) : acc ≤ ofNibblesBE acc l := by
  induction l generalizing acc with
  | nil => exact le_refl _
  | cons d ds ih =>
    calc acc ≤ 16 * acc + d := by omega
      _ ≤ ofNibblesBE (16 * acc + d) ds := ih _
      _ = ofNibblesBE acc (d :: ds) := rfl

theorem hexCharVal?_hexDigitChar (d : Nat) (hd : d < 16) :
    hexCharVal? (hexDigitChar d) = some d := by
  unfold hexDigitChar hexCharVal?
  by_cases h : d < 10
  · rw [if_pos h, if_pos (by omega)]
    congr 1
    omega
  · rw [if_neg h, if_neg (by omega), if_pos (by omega)]
    congr 1
    omega

theorem parseHexAux_map_hexDigitChar (l : List Nat) (acc : Nat)
    (hl : ∀ d ∈ l, d < 16) (hbound : ofNibblesBE acc l < 2 ^ 64) :
    parseHexAux (l.map hexDigitChar) acc = some (ofNibblesBE acc l) := by
  induction l generalizing acc with
  | nil => rfl
  | cons d ds ih =>
    have hd : d < 16 := hl d (by simp)
    simp only [List.map_cons, parseHexAux, hexCharVal?_hexDigitChar d hd]
    have hstep : 16 * acc + d ≤ ofNibblesBE acc (d :: ds) := ofNibblesBE_ge _ _
    rw [if_pos (by
      calc 16 * acc + d ≤ ofNibblesBE acc (d :: ds) := hstep
        _ < 2 ^ 64 := hbound)]
    exact ih (16 * acc + d) (fun x hx => hl x (by simp [hx])) hbound

/-- Parsing round-trip: `from_str_radix16?` inverts `hexFixed` for widths
that fit in 64 bits. -/
theorem from_str_radix16?_hexFixed (w v : Nat) (hw : 0 < w) (hw64 : 16 ^ w ≤ 2 ^ 64)
    (hv : v < 16 ^ w) :
    from_str_radix16? (hexFixed w v) = some v := by
  unfold from_str_radix16? hexFixed
  have hne : (toNibblesLE w v).reverse.map hexDigitChar ≠ [] := by
    intro hcontra
    have := congrArg List.length hcontra
    simp [toNibblesLE_length] at this
    omega
  rw [if_neg hne]
  have hdig : ∀ d ∈ (toNibblesLE w v).reverse, d < 16 := by
    intro d hd; exact toNibblesLE_lt w v d (List.mem_reverse.mp hd)
  rw [parseHexAux_map_hexDigitChar _ 0 hdig
    (by rw [ofNibblesBE_reverse_toNibblesLE w v hv]; omega)]
  rw [ofNibblesBE_reverse_toNibblesLE w v hv]

/-- Every character emitted by `hexFixed` is a lowercase hex digit. -/
theorem hexFixed_chars (w v : Nat) :
    ∀ c ∈ hexFixed w v, (48 ≤ c ∧ c ≤ 57) ∨ (97 ≤ c ∧ c ≤ 102) := by
  intro c hc
  unfold hexFixed at hc
  rcases List.mem_map.mp hc with ⟨d, hd, rfl⟩
  have : d < 16 := toNibblesLE_lt w v d (List.mem_reverse.mp hd)
  unfold hexDigitChar
  by_cases h : d < 10
  · rw [if_pos h]; omega
  · rw [if_neg h]; omega

theorem hexFixed_length (w v : Nat) : (hexFixed w v).length = w := by
  simp [hexFixed, toNibblesLE_length]

/-! ### Framing lemmas -/

theorem calculate_rsp_checksum_lt (data : List Nat) :
    calculate_rsp_checksum data < 256 := by
  unfold calculate_rsp_checksum
  induction data with
  | nil => norm_num
  | cons b bs ih =>
    have haux : ∀ (acc : Nat) (l : List Nat), acc < 256 →
        l.foldl (fun acc b => (acc + b) % 256) acc < 256 := by
      intro acc l
      induction l generalizing acc with
      | nil => intro h; exact h
      | cons x xs ihx =>
        intro _
        exact ihx _ (Nat.mod_lt _ (by norm_num))
    exact haux 0 (b :: bs) (by norm_num)

/-- The wrapping fold equals the plain sum mod 256. -/
theorem calculate_rsp_checksum_eq_sum (data : List Nat) :
    calculate_rsp_checksum data = data.sum % 256 := by
  have haux : ∀ (l : List Nat) (acc : Nat),
      l.foldl (fun acc b => (acc + b) % 256) (acc % 256) = (acc + l.sum) % 256 := by
    intro l
    induction l with
    | nil => intro acc; simp
    | cons x xs ih =>
      intro acc
      simp only [List.foldl_cons, List.sum_cons]
      have h1 : (acc % 256 + x) % 256 = (acc + x) % 256 := by omega
      rw [h1, ih (acc + x)]
      omega
  have := haux data 0
  simpa [calculate_rsp_checksum] using this

theorem unescape_of_no_escape (l : List Nat) (h : ∀ b ∈ l, b ≠ 0x7D) :
    unescape l = l := by
  induction l with
  | nil => rfl
  | cons b bs ih =>
    unfold unescape
    rw [if_neg (h b (by simp))]
    rw [ih (fun x hx => h x (by simp [hx]))]

/-- A `takeWhile`/`dropWhile` split at the first occurrence of a
delimiter that is absent from the prefix. -/
theorem takeWhile_append_stop (l r : List Nat) (stop : Nat)
    (h : ∀ b ∈ l, b ≠ stop) :
    (l ++ stop :: r).takeWhile (· ≠ stop) = l ∧
    (l ++ stop :: r).dropWhile (· ≠ stop) = stop :: r := by
  induction l with
  | nil => simp [List.takeWhile, List.dropWhile]
  | cons b bs ih =>
    have hb : b ≠ stop := h b (by simp)
    have ihr := ih (fun x hx => h x (by simp [hx]))
    constructor
    · simp only [List.cons_append, List.takeWhile_cons]
      rw [if_pos (by simpa using hb), ihr.1]
    · simp only [List.cons_append, List.dropWhile_cons]
      rw [if_pos (by simpa using hb), ihr.2]

theorem storeAt_same (m : Nat → Nat) (a v : Nat) : storeAt m a v a = v := by
  simp [storeAt]

theorem storeAt_other (m : Nat → Nat) (a v x : Nat) (h : x ≠ a) :
    storeAt m a v x = m x := by
  simp [storeAt, h]

/-- C1.  The claim says an expired Debug Module busy-poll makes the
server reply `E01` and stay up.  The code instead panics: with status
oracles that never report `ALLHALTED` / `ALLRUNNING` / `BUSY`-clear,
every one of the bounded polls (halt, resume, abstract-command wait,
single-step, continue) ends in the source's `panic!` message for every
poll budget — an `Except.error`, which the serve loop turns into process
death with no reply, rather than an `E01` reply. -/
theorem C1_dm_timeout_panics (dmstatus abstractcs : Nat → Nat)
    (hhalt : ∀ i, dmstatus i &&& RISCV_DBG_DMSTATUS_ALLHALTED = 0)
    (hrun : ∀ i, dmstatus i &&& RISCV_DBG_DMSTATUS_ALLRUNNING = 0)
    (hbusy : ∀ i, abstractcs i &&& RISCV_DBG_ABSTRACTCS_BUSY ≠ 0) :
    ∀ j fuel,
      rfpc_dbg_halt_poll dmstatus j fuel =
        .error "Timeout reached when waiting for RFPC core to halt after halt initiate!" ∧
      rfpc_dbg_resume_poll dmstatus j fuel =
        .error "Timeout reached when trying to resume RFPC core after resume initiate!" ∧
      abstract_cmd_busy_wait abstractcs j fuel =
        .error "Timeout reached in rfpc_dbg_abstractcmd()!" ∧
      rfpc_dbg_step_poll dmstatus j fuel =
        .error "Timeout reached when wating for RFPC core halt after step!" := by
  intro j fuel
  induction fuel generalizing j with
  | zero => exact ⟨rfl, rfl, rfl, rfl⟩
  | succ fuel ih =>
    refine ⟨?_, ?_, ?_, ?_⟩
    · rw [rfpc_dbg_halt_poll, if_neg (by simp [hhalt j])]
      exact (ih (j + 1)).1
    · rw [rfpc_dbg_resume_poll, if_neg (by simp [hrun j])]
      exact (ih (j + 1)).2.1
    · rw [abstract_cmd_busy_wait, if_neg (hbusy j)]
      exact (ih (j + 1)).2.2.1
    · rw [rfpc_dbg_step_poll, if_neg (by simp [hhalt j])]
      exact (ih (j + 1)).2.2.2

theorem C1_dm_timeout_panics_witness :
    ((0 : Nat) &&& RISCV_DBG_DMSTATUS_ALLHALTED = 0) ∧
    ((0 : Nat) &&& RISCV_DBG_DMSTATUS_ALLRUNNING = 0) ∧
    ((4096 : Nat) &&& RISCV_DBG_ABSTRACTCS_BUSY ≠ 0) ∧
    rfpc_dbg_halt_poll (fun _ => 0) 0 101 =
      .error "Timeout reached when waiting for RFPC core to halt after halt initiate!" := by
  refine ⟨by decide, by decide, by decide, ?_⟩
  exact (C1_dm_timeout_panics (fun _ => 0) (fun _ => 4096)
    (fun _ => (by decide : (0 : Nat) &&& RISCV_DBG_DMSTATUS_ALLHALTED = 0))
    (fun _ => (by decide : (0 : Nat) &&& RISCV_DBG_DMSTATUS_ALLRUNNING = 0))
    (fun _ => (by decide : (4096 : Nat) &&& RISCV_DBG_ABSTRACTCS_BUSY ≠ 0)) 0 101).1

/-- C2.  The claim says a clean detach writes every cached breakpoint
word back and empties the cache.  The code's `D` handler is the constant
`Ascii("detach")` entry and the run loop merely replies `OK` and stops:
on the wire frame `$D#44` the state — breakpoint cache included — is
returned untouched and no memory transaction is issued. -/
theorem C2_detach_leaves_breakpoints (st : RspState) :
    rsp_serve_one st (strBytes "$D#44") =
      .ok (st, (if st.disable_ack then [] else [43]),
           format_rsp_packet (strBytes "OK"), true) ∧
    (rsp_serve st [strBytes "$D#44"]).1.breakpoints = st.breakpoints := by
  obtain ⟨bp, dack, ckv, cv, tg⟩ := st
  cases dack <;> exact ⟨rfl, rfl⟩

/-- C7.  The claim says removing an uncached breakpoint replies `E03`.
The code panics instead: on `z0,2000,4` with an empty cache the handler
ends in the `panic!` message, so the process dies and no `E03` (nor any
other reply) is produced. -/
theorem C7_clear_uncached_breakpoint_panics :
    clear_breakpoint st0 (strBytes "z0,2000,4") =
      .error "Breakpoint address not found in the cache!" := rfl

/-- C8.  The claim says a register index outside the combined
32-GPR + 26-CSR range replies `E04`.  The code panics instead: `p99`
(index 0x99 = 153) and `P99=1122334455667788` both end in the
"Invalid register address" `panic!`, so no `E04` is produced. -/
theorem C8_register_index_out_of_range_panics :
    read_reg st0 (strBytes "p99") = .error "Invalid register address" ∧
    write_reg st0 (strBytes "P99=1122334455667788") =
      .error "Invalid register address" := ⟨rfl, rfl⟩

/-! ### Packet-plumbing lemmas shared by the remaining claims -/

/-- `hexFixed` never emits a framing or delimiter byte: its characters
are digits or lowercase letters, so not `#$*,:=}`. -/
theorem hexFixed_avoid (w v c : Nat) (hc : c ∈ hexFixed w v) :
    c ≠ 35 ∧ c ≠ 36 ∧ c ≠ 42 ∧ c ≠ 44 ∧ c ≠ 58 ∧ c ≠ 61 ∧ c ≠ 125 := by
  rcases hexFixed_chars w v c hc with h | h <;> omega

/-- Splitting a packet at the first occurrence of a delimiter absent from
the part before it. -/
theorem position?_split (pre post : List Nat) (d : Nat)
    (hpre : ∀ b ∈ pre, b ≠ d) :
    position? d (pre ++ d :: post) = some pre.length ∧
    (pre ++ d :: post).take pre.length = pre ∧
    (pre ++ d :: post).drop (pre.length + 1) = post := by
  induction pre with
  | nil => simp [position?]
  | cons b bs ih =>
    have hb : b ≠ d := hpre b (by simp)
    have ihr := ih (fun x hx => hpre x (by simp [hx]))
    refine ⟨?_, ?_, ?_⟩
    · show (if b = d then some 0 else (position? d (bs ++ d :: post)).map (· + 1)) =
        some (bs.length + 1)
      rw [if_neg hb, ihr.1]
      rfl
    · simp only [List.cons_append, List.length_cons, List.take_succ_cons, ihr.2.1]
    · simpa only [List.cons_append, List.length_cons, List.drop_succ_cons] using ihr.2.2

/-- A delimiter inside a list is found by `List.any`. -/
theorem any_append_self (pre post : List Nat) (d : Nat) :
    (pre ++ d :: post).any (· = d) = true := by
  induction pre with
  | nil => simp [List.any_cons]
  | cons b bs ih => simp [List.any_cons, ih]

/-- Parsing an outbound packet built by `format_rsp_packet` succeeds and
returns the payload (when the payload contains no raw `#` to end the body
early and no `}` to trigger unescaping), emitting `+` exactly when acking
is enabled. -/
theorem parse_format_rsp_packet (P : List Nat) (d : Bool)
    (hP : ∀ x ∈ P, x ≠ 35 ∧ x ≠ 125) :
    parse_rsp_packet d (format_rsp_packet P) = .ok (P, if d then [] else [43]) := by
  have hck := calculate_rsp_checksum_lt P
  obtain ⟨c1, c2, hc⟩ :
      ∃ c1 c2, hexFixed 2 (calculate_rsp_checksum P) = [c1, c2] :=
    List.length_eq_two.mp (hexFixed_length 2 _)
  have hsplit := takeWhile_append_stop P (hexFixed 2 (calculate_rsp_checksum P)) 35
    (fun b hb => (hP b hb).1)
  have hdollar : dropToDollar (format_rsp_packet P) =
      some (P ++ 35 :: hexFixed 2 (calculate_rsp_checksum P)) := by
    simp [format_rsp_packet, dropToDollar]
  have htb : takeBody (P ++ 35 :: hexFixed 2 (calculate_rsp_checksum P)) =
      some (P, hexFixed 2 (calculate_rsp_checksum P)) := by
    unfold takeBody
    rw [hsplit.2, hsplit.1]
    simp
  have hrecv : from_str_radix16? [c1, c2] = some (calculate_rsp_checksum P) := by
    rw [← hc]
    exact from_str_radix16?_hexFixed 2 _ (by norm_num) (by norm_num) (by omega)
  unfold parse_rsp_packet
  rw [hdollar]
  rw [hc] at htb
  simp only [hc, htb, hrecv, Option.getD_some, eq_self_iff_true, if_true]
  rw [unescape_of_no_escape P (fun b hb => (hP b hb).2)]

/-- C5.  Framing round-trip: for a payload free of raw `$ # } *` bytes,
encoding with `format_rsp_packet` and decoding with `parse_rsp_packet`
returns the payload; the appended checksum is `sum(P) mod 256` rendered
as exactly two lowercase hex digits; and an inbound body consisting of
`0x7D (b XOR 0x20)` unescapes to the single byte `b`. -/
theorem C5_framing_roundtrip (P : List Nat) (b : Nat)
    (hP : ∀ x ∈ P, x < 256 ∧ x ≠ 36 ∧ x ≠ 35 ∧ x ≠ 125 ∧ x ≠ 42) :
    (∀ d : Bool,
      parse_rsp_packet d (format_rsp_packet P) = .ok (P, if d then [] else [43])) ∧
    format_rsp_packet P = 36 :: P ++ 35 :: hexFixed 2 (P.sum % 256) ∧
    (hexFixed 2 (calculate_rsp_checksum P)).length = 2 ∧
    (∀ c ∈ hexFixed 2 (calculate_rsp_checksum P),
      (48 ≤ c ∧ c ≤ 57) ∨ (97 ≤ c ∧ c ≤ 102)) ∧
    unescape [125, b ^^^ 32] = [b] := by
  refine ⟨?_, ?_, hexFixed_length 2 _, hexFixed_chars 2 _, ?_⟩
  · intro d
    exact parse_format_rsp_packet P d (fun x hx => ⟨(hP x hx).2.2.1, (hP x hx).2.2.2.1⟩)
  · rw [format_rsp_packet, calculate_rsp_checksum_eq_sum]
  · show ((b ^^^ 32) ^^^ 32) :: unescape [] = [b]
    rw [Nat.xor_assoc, Nat.xor_self, Nat.xor_zero]
    rfl

theorem rfpc_dbg_read_write_reg (t : Target) (r v : Nat) :
    rfpc_dbg_read_reg (rfpc_dbg_write_reg t r v) r = v % 2 ^ 64 := by
  show storeAt t.regs r (v % 2 ^ 64) r % 2 ^ 64 = v % 2 ^ 64
  rw [storeAt_same]
  omega

/-- C6.  Register round-trip: for a GPR index `1 ≤ i ≤ 31` and any
64-bit `v`, the `P<i>=<v>` handler parses and byte-swaps the value
before storing, and the `p<i>` handler byte-swaps the stored value back,
so the reply carries exactly the 16 hex chars of `v`. -/
theorem C6_register_roundtrip (st : RspState) (i v : Nat)
    (hi1 : 1 ≤ i) (hi2 : i ≤ 31) (hv : v < 2 ^ 64) :
    write_reg st ((80 :: hexFixed 2 i) ++ 61 :: hexFixed 16 v) =
      .ok (strBytes "OK",
        { st with target := rfpc_dbg_write_reg st.target (gprRegAddr i) (swap_bytes64 v) },
        []) ∧
    read_reg { st with target := rfpc_dbg_write_reg st.target (gprRegAddr i) (swap_bytes64 v) }
        (112 :: hexFixed 2 i) =
      .ok (hexFixed 16 v,
        { st with target := rfpc_dbg_write_reg st.target (gprRegAddr i) (swap_bytes64 v) },
        []) := by
  have hpre : ∀ b ∈ 80 :: hexFixed 2 i, b ≠ 61 := by
    intro b hb
    rcases List.mem_cons.mp hb with rfl | hb
    · decide
    · exact (hexFixed_avoid 2 i b hb).2.2.2.2.2.1
  have hsplit := position?_split (80 :: hexFixed 2 i) (hexFixed 16 v) 61 hpre
  have hparsei : from_str_radix16? (hexFixed 2 i) = some i :=
    from_str_radix16?_hexFixed 2 i (by norm_num) (by norm_num) (by omega)
  have h1616 : (16 : Nat) ^ 16 = 2 ^ 64 := by norm_num
  have hparsev : from_str_radix16? (hexFixed 16 v) = some v :=
    from_str_radix16?_hexFixed 16 v (by norm_num) (by norm_num) (by omega)
  have hswaplt := swap_bytes64_lt v
  constructor
  · unfold write_reg
    rw [hsplit.1]
    simp only [hsplit.2.1, hsplit.2.2, List.drop_succ_cons, List.drop_zero]
    simp only [hparsei, hparsev]
    rw [if_pos (by omega : i < 32)]
  · unfold read_reg
    simp only [List.drop_succ_cons, List.drop_zero, hparsei]
    rw [if_pos (by omega : i < 32)]
    have hval : rfpc_dbg_read_reg
        (rfpc_dbg_write_reg st.target (gprRegAddr i) (swap_bytes64 v)) (gprRegAddr i) =
        swap_bytes64 v := by
      rw [rfpc_dbg_read_write_reg, Nat.mod_eq_of_lt hswaplt]
    simp only [hval, swap_bytes64_swap_bytes64 v hv]

theorem C6_register_roundtrip_witness :
    (1 ≤ 1) ∧ ((1 : Nat) ≤ 31) ∧ ((0x1122334455667788 : Nat) < 2 ^ 64) ∧
    (write_reg st0 ((80 :: hexFixed 2 1) ++ 61 :: hexFixed 16 0x1122334455667788) =
      .ok (strBytes "OK",
        { st0 with target :=
            rfpc_dbg_write_reg st0.target (gprRegAddr 1) (swap_bytes64 0x1122334455667788) },
        []) ∧
    read_reg { st0 with target :=
        rfpc_dbg_write_reg st0.target (gprRegAddr 1) (swap_bytes64 0x1122334455667788) }
        (112 :: hexFixed 2 1) =
      .ok (hexFixed 16 0x1122334455667788,
        { st0 with target :=
            rfpc_dbg_write_reg st0.target (gprRegAddr 1) (swap_bytes64 0x1122334455667788) },
        [])) :=
  ⟨by decide, by decide, by norm_num,
   C6_register_roundtrip st0 1 0x1122334455667788 (by decide) (by decide) (by norm_num)⟩

/-- C10.  A memory-write packet (`M` or `X`) whose length field parses
to zero returns `OK` before any routing, padding or memory access: the
state is returned untouched and the transaction trace is empty. -/
theorem C10_zero_length_write_noop (st : RspState) (cmdByte a : Nat) (data : List Nat)
    (hcmd : cmdByte = 77 ∨ cmdByte = 88) (ha : a < 2 ^ 64) :
    memory_write st ((cmdByte :: hexFixed 16 a ++ [44, 48]) ++ 58 :: data) =
      .ok (strBytes "OK", st, []) := by
  have hpre : ∀ b ∈ cmdByte :: hexFixed 16 a ++ [44, 48], b ≠ 58 := by
    intro b hb
    rcases List.mem_cons.mp hb with rfl | hb
    · omega
    · rcases List.mem_append.mp hb with hb | hb
      · exact (hexFixed_avoid 16 a b hb).2.2.2.2.1
      · simp only [List.mem_cons, List.not_mem_nil, or_false] at hb
        omega
  have hsplit := position?_split (cmdByte :: hexFixed 16 a ++ [44, 48]) data 58 hpre
  have hsplit2 := takeWhile_append_stop (hexFixed 16 a) [48] 44
    (fun b hb => (hexFixed_avoid 16 a b hb).2.2.2.1)
  have h1616 : (16 : Nat) ^ 16 = 2 ^ 64 := by norm_num
  have hparsea : from_str_radix16? (hexFixed 16 a) = some a :=
    from_str_radix16?_hexFixed 16 a (by norm_num) (by norm_num) (by omega)
  unfold memory_write
  simp only [List.cons_append] at hsplit ⊢
  rw [hsplit.1]
  simp only [hsplit.2.1, List.drop_one, List.tail_cons,
    any_append_self (hexFixed 16 a) [48] 44, if_true]
  rw [hsplit2.1, hsplit2.2]
  simp only [List.drop_one, List.tail_cons, hparsea,
    show from_str_radix16? [48] = some 0 from rfl, eq_self_iff_true, if_true]

/-- Address bits [51:48] as the source computes them, in `div`/`mod` form. -/
theorem ctm_bit_eq (a : Nat) : (a >>> 48) &&& 0xF = a / 2 ^ 48 % 16 := by
  rw [Nat.shiftRight_eq_div_pow]
  rw [show (0xF : Nat) = 2 ^ 4 - 1 from rfl, Nat.and_pow_two_sub_one_eq_mod]

/-- The low-32-bit address mask in `mod` form. -/
theorem mask32_eq (a : Nat) : a &&& 0xFFFFFFFF = a % 2 ^ 32 := by
  rw [show (0xFFFFFFFF : Nat) = 2 ^ 32 - 1 from rfl, Nat.and_pow_two_sub_one_eq_mod]

theorem bytesToWords32_length (l : List Nat) :
    (bytesToWords32 l).length = l.length / 4 := by
  induction l using bytesToWords32.induct with
  | case1 b0 b1 b2 b3 rest ih =>
    simp only [bytesToWords32, List.length_cons, ih]
    omega
  | case2 l h =>
    match l, h with
    | [], _ => simp [bytesToWords32]
    | [a], _ => simp [bytesToWords32]
    | [a, b], _ => simp [bytesToWords32]
    | [a, b, c], _ => simp [bytesToWords32]
    | a :: b :: c :: d :: rest, h => exact absurd rfl (h a b c d rest)

theorem bytesToWords64_length (l : List Nat) :
    (bytesToWords64 l).length = l.length / 8 := by
  induction l using bytesToWords64.induct with
  | case1 b0 b1 b2 b3 b4 b5 b6 b7 rest ih =>
    simp only [bytesToWords64, List.length_cons, ih]
    omega
  | case2 l h =>
    match l, h with
    | [], _ => simp [bytesToWords64]
    | [a], _ => simp [bytesToWords64]
    | [a, b], _ => simp [bytesToWords64]
    | [a, b, c], _ => simp [bytesToWords64]
    | [a, b, c, d], _ => simp [bytesToWords64]
    | [a, b, c, d, e], _ => simp [bytesToWords64]
    | [a, b, c, d, e, f], _ => simp [bytesToWords64]
    | [a, b, c, d, e, f, g], _ => simp [bytesToWords64]
    | a :: b :: c :: d :: e :: f :: g :: h0 :: rest, h =>
      exact absurd rfl (h a b c d e f g h0 rest)

theorem padTo8_length (len : Nat) (data : List Nat) (hdata : data.length = len) :
    (padTo8 len data).length = 8 * ((len + 7) / 8) := by
  unfold padTo8
  split <;> simp [hdata] <;> omega

theorem rfpc_dbg_read_memory_one (t : Target) (ad : Nat) :
    rfpc_dbg_read_memory t ad 1 = [t.dm ad % 2 ^ 64] := by
  rw [rfpc_dbg_read_memory, show List.range 1 = [0] from rfl]
  simp

theorem mem_read_one (t : Target) (ad : Nat) :
    mem_read t ad 1 = [t.ctm ad % 2 ^ 32] := by
  rw [mem_read, show List.range 1 = [0] from rfl]
  simp

/-- Parsing of a `Z0,<addr>,4` / `z0,<addr>,4` packet: dropping the three
command bytes and taking up to the comma leaves the address text. -/
theorem bp_packet_addr (tag0 tag1 : Nat) (a : Nat) (ha : a < 2 ^ 64) :
    from_str_radix16?
      (((tag0 :: tag1 :: 44 :: (hexFixed 16 a ++ [44, 52])).drop 3).takeWhile (· ≠ 44))
      = some a := by
  have hdrop : ((tag0 :: tag1 :: 44 :: (hexFixed 16 a ++ [44, 52])).drop 3) =
      hexFixed 16 a ++ [44, 52] := rfl
  rw [hdrop]
  have hsplit := takeWhile_append_stop (hexFixed 16 a) [52] 44
    (fun b hb => (hexFixed_avoid 16 a b hb).2.2.2.1)
  rw [hsplit.1]
  have h1616 : (16 : Nat) ^ 16 = 2 ^ 64 := by norm_num
  exact from_str_radix16?_hexFixed 16 a (by norm_num) (by norm_num) (by omega)

/-- C3.  Breakpoint round-trip: from an empty cache, `Z0,a,4` caches the
original word and patches the `ebreak`, and `z0,a,4` restores the word
and empties the cache.  For a non-CTM address the intermediate patched
word is `(w &&& 0xFFFFFFFF00000000) ||| 0x00100073`; for a CTM address
it is the single 32-bit word `0x00100073`. -/
theorem C3_breakpoint_restore (t : Target) (a : Nat) (ha : a < 2 ^ 64) :
    ((a >>> 48) &&& 0xF ≠ 1 →
      ∀ w, t.dm (a &&& 0xFFFFFFFF) = w → w < 2 ^ 64 →
      ∃ st1 st2 : RspState,
        set_breakpoint ⟨[], false, [], [], t⟩
            (90 :: 48 :: 44 :: (hexFixed 16 a ++ [44, 52])) =
          .ok (strBytes "OK", st1,
            [.dbgRead (a &&& 0xFFFFFFFF) 1,
             .dbgWrite (a &&& 0xFFFFFFFF) [(w &&& 0xFFFFFFFF00000000) ||| 0x00100073]]) ∧
        st1.breakpoints = [(a, w)] ∧
        st1.target.dm (a &&& 0xFFFFFFFF) = (w &&& 0xFFFFFFFF00000000) ||| 0x00100073 ∧
        clear_breakpoint st1 (122 :: 48 :: 44 :: (hexFixed 16 a ++ [44, 52])) =
          .ok (strBytes "OK", st2, [.dbgWrite (a &&& 0xFFFFFFFF) [w]]) ∧
        st2.breakpoints = [] ∧
        st2.target.dm (a &&& 0xFFFFFFFF) = w) ∧
    ((a >>> 48) &&& 0xF = 1 →
      ∀ w, t.ctm (a &&& 0xFFFFFFFF) = w → w < 2 ^ 32 →
      ∃ st1 st2 : RspState,
        set_breakpoint ⟨[], false, [], [], t⟩
            (90 :: 48 :: 44 :: (hexFixed 16 a ++ [44, 52])) =
          .ok (strBytes "OK", st1,
            [.memRead .Rfpc0 .Ctm .Atomic32 (a &&& 0xFFFFFFFF) 1,
             .memWrite .Rfpc0 .Ctm .Atomic32 (a &&& 0xFFFFFFFF) [0x00100073]]) ∧
        st1.breakpoints = [(a, w)] ∧
        st1.target.ctm (a &&& 0xFFFFFFFF) = 0x00100073 ∧
        clear_breakpoint st1 (122 :: 48 :: 44 :: (hexFixed 16 a ++ [44, 52])) =
          .ok (strBytes "OK", st2,
            [.memWrite .Rfpc0 .Ctm .Atomic32 (a &&& 0xFFFFFFFF) [w]]) ∧
        st2.breakpoints = [] ∧
        st2.target.ctm (a &&& 0xFFFFFFFF) = w) := by
  have hparse := bp_packet_addr 90 48 a ha
  have hparse' := bp_packet_addr 122 48 a ha
  have hlook : ∀ w : Nat, bpLookup [(a, w)] a = some w := by
    intro w; simp [bpLookup]
  have hrem : ∀ w : Nat, bpRemove [(a, w)] a = [] := by
    intro w; simp [bpRemove]
  constructor
  · intro hnc w hw hw64
    have hlt : (w &&& 0xFFFFFFFF00000000) ||| 0x00100073 < 2 ^ 64 :=
      Nat.or_lt_two_pow (Nat.and_lt_two_pow w (by norm_num)) (by norm_num)
    have horig : (rfpc_dbg_read_memory t (a &&& 0xFFFFFFFF) 1).getD 0 0 = w := by
      rw [rfpc_dbg_read_memory_one, hw]
      show w % 2 ^ 64 = w
      omega
    refine ⟨⟨[(a, w)], false, [], [],
        rfpc_dbg_write_memory t (a &&& 0xFFFFFFFF)
          [(w &&& 0xFFFFFFFF00000000) ||| 0x00100073]⟩,
      ⟨[], false, [], [],
        rfpc_dbg_write_memory
          (rfpc_dbg_write_memory t (a &&& 0xFFFFFFFF)
            [(w &&& 0xFFFFFFFF00000000) ||| 0x00100073])
          (a &&& 0xFFFFFFFF) [w]⟩,
      ?_, rfl, ?_, ?_, rfl, ?_⟩
    · unfold set_breakpoint
      simp only [hparse]
      rw [if_neg hnc]
      simp only [horig]
      rfl
    · show storeWords t.dm (a &&& 0xFFFFFFFF) 8
        ([(w &&& 0xFFFFFFFF00000000) ||| 0x00100073].map (· % 2 ^ 64)) (a &&& 0xFFFFFFFF) =
        (w &&& 0xFFFFFFFF00000000) ||| 0x00100073
      simp only [List.map_cons, List.map_nil, Nat.mod_eq_of_lt hlt, storeWords, storeAt_same]
    · unfold clear_breakpoint
      simp only [hparse', hlook, hrem]
      rw [if_neg hnc]
    · show storeWords _ (a &&& 0xFFFFFFFF) 8 ([w].map (· % 2 ^ 64)) (a &&& 0xFFFFFFFF) = w
      simp only [List.map_cons, List.map_nil, Nat.mod_eq_of_lt hw64, storeWords, storeAt_same]
  · intro hc w hw hw32
    have horig : (mem_read t (a &&& 0xFFFFFFFF) 1).getD 0 0 = w := by
      rw [mem_read_one, hw]
      show w % 2 ^ 32 = w
      omega
    refine ⟨⟨[(a, w)], false, [], [],
        mem_write t (a &&& 0xFFFFFFFF) [0x00100073]⟩,
      ⟨[], false, [], [],
        mem_write (mem_write t (a &&& 0xFFFFFFFF) [0x00100073])
          (a &&& 0xFFFFFFFF) [w]⟩,
      ?_, rfl, ?_, ?_, rfl, ?_⟩
    · unfold set_breakpoint
      simp only [hparse]
      rw [if_pos hc]
      simp only [horig]
      rfl
    · show storeWords t.ctm (a &&& 0xFFFFFFFF) 4
        ([0x00100073].map (· % 2 ^ 32)) (a &&& 0xFFFFFFFF) = 0x00100073
      simp only [List.map_cons, List.map_nil, storeWords, storeAt_same]
      norm_num
    · unfold clear_breakpoint
      simp only [hparse', hlook, hrem]
      rw [if_pos hc]
      simp only [Nat.mod_eq_of_lt hw32]
    · show storeWords _ (a &&& 0xFFFFFFFF) 4 ([w].map (· % 2 ^ 32)) (a &&& 0xFFFFFFFF) = w
      simp only [List.map_cons, List.map_nil, storeWords, storeAt_same]
      omega

theorem C3_breakpoint_restore_witness :
    ((0x2000 : Nat) < 2 ^ 64) ∧
    (∃ st1 st2 : RspState,
      set_breakpoint ⟨[], false, [], [], t1⟩
          (90 :: 48 :: 44 :: (hexFixed 16 0x2000 ++ [44, 52])) =
        .ok (strBytes "OK", st1,
          [.dbgRead (0x2000 &&& 0xFFFFFFFF) 1,
           .dbgWrite (0x2000 &&& 0xFFFFFFFF)
             [(0x1122334455667788 &&& 0xFFFFFFFF00000000) ||| 0x00100073]]) ∧
      st1.breakpoints = [(0x2000, 0x1122334455667788)] ∧
      st1.target.dm (0x2000 &&& 0xFFFFFFFF) =
        (0x1122334455667788 &&& 0xFFFFFFFF00000000) ||| 0x00100073 ∧
      clear_breakpoint st1 (122 :: 48 :: 44 :: (hexFixed 16 0x2000 ++ [44, 52])) =
        .ok (strBytes "OK", st2, [.dbgWrite (0x2000 &&& 0xFFFFFFFF) [0x1122334455667788]]) ∧
      st2.breakpoints = [] ∧
      st2.target.dm (0x2000 &&& 0xFFFFFFFF) = 0x1122334455667788) :=
  ⟨by norm_num,
   (C3_breakpoint_restore t1 0x2000 (by norm_num)).1 (by decide)
     0x1122334455667788 rfl (by norm_num)⟩

/-! ### Ack-flag preservation, per handler (for C9)

`disable_ack` lives in `RspState`; the only handler that writes it is
`toggle_ack`, and only from `false` to `true`. -/

theorem cmd_not_supported_ack (st : RspState) (r : List Nat) (st' : RspState)
    (tr : List MemAccess) (h : cmd_not_supported st = .ok (r, st', tr))
    (hd : st.disable_ack = true) : st'.disable_ack = true := by
  unfold cmd_not_supported at h
  simp_all

theorem read_gprs_ack (st : RspState) (r : List Nat) (st' : RspState)
    (tr : List MemAccess) (h : read_gprs st = .ok (r, st', tr))
    (hd : st.disable_ack = true) : st'.disable_ack = true := by
  unfold read_gprs at h
  simp_all

theorem load_offsets_ack (st : RspState) (r : List Nat) (st' : RspState)
    (tr : List MemAccess) (h : load_offsets st = .ok (r, st', tr))
    (hd : st.disable_ack = true) : st'.disable_ack = true := by
  unfold load_offsets at h
  simp_all

theorem toggle_ack_ack (st : RspState) (r : List Nat) (st' : RspState)
    (tr : List MemAccess) (h : toggle_ack st = .ok (r, st', tr))
    (hd : st.disable_ack = true) : st'.disable_ack = true := by
  unfold toggle_ack at h
  split at h
  all_goals simp_all

theorem single_step_sig_ack (st : RspState) (r : List Nat) (st' : RspState)
    (tr : List MemAccess) (h : single_step_sig st = .ok (r, st', tr))
    (hd : st.disable_ack = true) : st'.disable_ack = true := by
  unfold single_step_sig at h
  simp_all
  all_goals (obtain ⟨-, h2, -⟩ := h; subst h2; rfl)

theorem read_reg_ack (st : RspState) (p r : List Nat) (st' : RspState)
    (tr : List MemAccess) (h : read_reg st p = .ok (r, st', tr))
    (hd : st.disable_ack = true) : st'.disable_ack = true := by
  unfold read_reg at h
  repeat' split at h
  all_goals simp_all

theorem write_reg_ack (st : RspState) (p r : List Nat) (st' : RspState)
    (tr : List MemAccess) (h : write_reg st p = .ok (r, st', tr))
    (hd : st.disable_ack = true) : st'.disable_ack = true := by
  unfold write_reg at h
  repeat' split at h
  all_goals simp_all
  all_goals (obtain ⟨-, h2, -⟩ := h; subst h2; rfl)

theorem set_core_ack (st : RspState) (p r : List Nat) (st' : RspState)
    (tr : List MemAccess) (h : set_core st p = .ok (r, st', tr))
    (hd : st.disable_ack = true) : st'.disable_ack = true := by
  unfold set_core at h
  simp_all

theorem single_step_ack (st : RspState) (p r : List Nat) (st' : RspState)
    (tr : List MemAccess) (h : single_step st p = .ok (r, st', tr))
    (hd : st.disable_ack = true) : st'.disable_ack = true := by
  unfold single_step at h
  repeat' split at h
  all_goals simp_all
  all_goals (obtain ⟨-, h2, -⟩ := h; subst h2; rfl)

theorem cont_ack (st : RspState) (p r : List Nat) (st' : RspState)
    (tr : List MemAccess) (h : cont st p = .ok (r, st', tr))
    (hd : st.disable_ack = true) : st'.disable_ack = true := by
  unfold cont at h
  repeat' split at h
  all_goals simp_all
  all_goals (obtain ⟨-, h2, -⟩ := h; subst h2; rfl)

theorem cont_with_sig_ack (st : RspState) (p r : List Nat) (st' : RspState)
    (tr : List MemAccess) (h : cont_with_sig st p = .ok (r, st', tr))
    (hd : st.disable_ack = true) : st'.disable_ack = true := by
  unfold cont_with_sig at h
  simp_all
  all_goals (obtain ⟨-, h2, -⟩ := h; subst h2; rfl)

theorem set_breakpoint_ack (st : RspState) (p r : List Nat) (st' : RspState)
    (tr : List MemAccess) (h : set_breakpoint st p = .ok (r, st', tr))
    (hd : st.disable_ack = true) : st'.disable_ack = true := by
  unfold set_breakpoint at h
  simp only [] at h
  repeat' split at h
  all_goals first
    | exact Except.noConfusion h
    | (simp only [Except.ok.injEq, Prod.mk.injEq] at h
       obtain ⟨-, h2, -⟩ := h
       subst h2
       exact hd)

theorem clear_breakpoint_ack (st : RspState) (p r : List Nat) (st' : RspState)
    (tr : List MemAccess) (h : clear_breakpoint st p = .ok (r, st', tr))
    (hd : st.disable_ack = true) : st'.disable_ack = true := by
  unfold clear_breakpoint at h
  simp only [] at h
  repeat' split at h
  all_goals first
    | exact Except.noConfusion h
    | (simp only [Except.ok.injEq, Prod.mk.injEq] at h
       obtain ⟨-, h2, -⟩ := h
       subst h2
       exact hd)

theorem memory_write_ack (st : RspState) (p r : List Nat) (st' : RspState)
    (tr : List MemAccess) (h : memory_write st p = .ok (r, st', tr))
    (hd : st.disable_ack = true) : st'.disable_ack = true := by
  unfold memory_write at h
  simp only [] at h
  repeat' split at h
  all_goals first
    | exact Except.noConfusion h
    | (simp only [Except.ok.injEq, Prod.mk.injEq] at h
       obtain ⟨-, h2, -⟩ := h
       subst h2
       exact hd)

theorem memory_read_ack (st : RspState) (p r : List Nat) (st' : RspState)
    (tr : List MemAccess) (h : memory_read st p = .ok (r, st', tr))
    (hd : st.disable_ack = true) : st'.disable_ack = true := by
  unfold memory_read at h
  simp only [] at h
  repeat' split at h
  all_goals first
    | exact Except.noConfusion h
    | (simp only [Except.ok.injEq, Prod.mk.injEq] at h
       obtain ⟨-, h2, -⟩ := h
       subst h2
       exact hd)

theorem supported_features_ack (st : RspState) (p r : List Nat) (st' : RspState)
    (tr : List MemAccess) (h : supported_features st p = .ok (r, st', tr))
    (hd : st.disable_ack = true) : st'.disable_ack = true := by
  unfold supported_features at h
  have hfold : ∀ (feats : List (List Nat)) (s : RspState), s.disable_ack = true →
      (feats.foldl (fun s f =>
        match position? 61 f with
        | some ei =>
          { s with client_kv_support := kvSet s.client_kv_support (f.take ei) (f.drop (ei + 1)) }
        | none => { s with client_v_support := s.client_v_support ++ [f] }) s).disable_ack
        = true := by
    intro feats
    induction feats with
    | nil => intro s hs; exact hs
    | cons f fs ih =>
      intro s hs
      simp only [List.foldl_cons]
      apply ih
      cases hpos : position? 61 f <;> simp [hpos, hs]
  simp only [] at h
  repeat' split at h
  all_goals first
    | exact Except.noConfusion h
    | (simp only [Except.ok.injEq, Prod.mk.injEq] at h
       obtain ⟨-, h2, -⟩ := h
       subst h2
       exact hfold _ st hd)

theorem findEntry_mem (cmd : List Nat) (l : List (List Nat × Option FuncType))
    (e : Option FuncType) (h : findEntry cmd l = some e) : ∃ k, (k, e) ∈ l := by
  induction l with
  | nil => simp [findEntry] at h
  | cons ke rest ih =>
    obtain ⟨k0, e0⟩ := ke
    unfold findEntry at h
    split at h
    · injection h with h1
      subst h1
      exact ⟨k0, List.mem_cons_self _ _⟩
    · obtain ⟨k, hk⟩ := ih h
      exact ⟨k, by simp [hk]⟩

theorem findEntryPre_mem (cmd : List Nat) (l : List (List Nat × Option FuncType))
    (e : Option FuncType) (h : findEntryPre cmd l = some e) : ∃ k, (k, e) ∈ l := by
  induction l with
  | nil => simp [findEntryPre] at h
  | cons ke rest ih =>
    obtain ⟨k0, e0⟩ := ke
    unfold findEntryPre at h
    split at h
    · injection h with h1
      subst h1
      exact ⟨k0, List.mem_cons_self _ _⟩
    · obtain ⟨k, hk⟩ := ih h
      exact ⟨k, by simp [hk]⟩

theorem runEntry_none (st : RspState) (p : List Nat) (r : Option (List Nat))
    (st' : RspState) (tr : List MemAccess)
    (h : runEntry st p none = .ok (r, st', tr)) : st' = st := by
  simp only [runEntry, Except.ok.injEq, Prod.mk.injEq] at h
  exact h.2.1.symm

theorem runEntry_ascii (st : RspState) (p s : List Nat) (r : Option (List Nat))
    (st' : RspState) (tr : List MemAccess)
    (h : runEntry st p (some (.Ascii s)) = .ok (r, st', tr)) : st' = st := by
  simp only [runEntry, Except.ok.injEq, Prod.mk.injEq] at h
  exact h.2.1.symm

theorem runEntry_noarg (st : RspState) (p : List Nat) (f : RspState → HandlerResult)
    (r : Option (List Nat)) (st' : RspState) (tr : List MemAccess)
    (h : runEntry st p (some (.NoArg f)) = .ok (r, st', tr)) :
    ∃ r₀, f st = .ok (r₀, st', tr) := by
  unfold runEntry at h
  simp only [] at h
  cases hf : f st with
  | error e => rw [hf] at h; exact Except.noConfusion h
  | ok x =>
    obtain ⟨x1, x2, x3⟩ := x
    rw [hf] at h
    simp only [Except.map, Except.ok.injEq, Prod.mk.injEq] at h
    exact ⟨x1, by rw [h.2.1, h.2.2]⟩

theorem runEntry_witharg (st : RspState) (p : List Nat)
    (f : RspState → List Nat → HandlerResult)
    (r : Option (List Nat)) (st' : RspState) (tr : List MemAccess)
    (h : runEntry st p (some (.WithArg f)) = .ok (r, st', tr)) :
    ∃ r₀, f st p = .ok (r₀, st', tr) := by
  unfold runEntry at h
  simp only [] at h
  cases hf : f st p with
  | error e => rw [hf] at h; exact Except.noConfusion h
  | ok x =>
    obtain ⟨x1, x2, x3⟩ := x
    rw [hf] at h
    simp only [Except.map, Except.ok.injEq, Prod.mk.injEq] at h
    exact ⟨x1, by rw [h.2.1, h.2.2]⟩

/-- Every entry of the dispatch table preserves a set ack-disable flag:
the table's only flag writer is `toggle_ack`, which never clears it. -/
theorem table_entry_ack (st : RspState) (p : List Nat) (e : Option FuncType)
    (hmem : ∃ k, (k, e) ∈ cmd_resp_map)
    (r : Option (List Nat)) (st' : RspState) (tr : List MemAccess)
    (h : runEntry st p e = .ok (r, st', tr)) (hd : st.disable_ack = true) :
    st'.disable_ack = true := by
  obtain ⟨k, hk⟩ := hmem
  simp only [cmd_resp_map, List.mem_cons, List.not_mem_nil, or_false,
    Prod.mk.injEq] at hk
  obtain ⟨-, rfl⟩ | hk := hk
  · obtain ⟨r₀, hf⟩ := runEntry_noarg _ _ _ _ _ _ h
    exact cmd_not_supported_ack st r₀ st' tr hf hd
  obtain ⟨-, rfl⟩ | hk := hk
  · rw [runEntry_ascii _ _ _ _ _ _ h]
    exact hd
  obtain ⟨-, rfl⟩ | hk := hk
  · obtain ⟨r₀, hf⟩ := runEntry_noarg _ _ _ _ _ _ h
    exact toggle_ack_ack st r₀ st' tr hf hd
  obtain ⟨-, rfl⟩ | hk := hk
  · rw [runEntry_ascii _ _ _ _ _ _ h]
    exact hd
  obtain ⟨-, rfl⟩ | hk := hk
  · obtain ⟨r₀, hf⟩ := runEntry_noarg _ _ _ _ _ _ h
    exact load_offsets_ack st r₀ st' tr hf hd
  obtain ⟨-, rfl⟩ | hk := hk
  · obtain ⟨r₀, hf⟩ := runEntry_witharg _ _ _ _ _ _ h
    exact supported_features_ack st p r₀ st' tr hf hd
  obtain ⟨-, rfl⟩ | hk := hk
  · rw [runEntry_ascii _ _ _ _ _ _ h]
    exact hd
  obtain ⟨-, rfl⟩ | hk := hk
  · obtain ⟨r₀, hf⟩ := runEntry_witharg _ _ _ _ _ _ h
    exact set_core_ack st p r₀ st' tr hf hd
  obtain ⟨-, rfl⟩ | hk := hk
  · obtain ⟨r₀, hf⟩ := runEntry_noarg _ _ _ _ _ _ h
    exact read_gprs_ack st r₀ st' tr hf hd
  obtain ⟨-, rfl⟩ | hk := hk
  · obtain ⟨r₀, hf⟩ := runEntry_witharg _ _ _ _ _ _ h
    exact read_reg_ack st p r₀ st' tr hf hd
  obtain ⟨-, rfl⟩ | hk := hk
  · obtain ⟨r₀, hf⟩ := runEntry_witharg _ _ _ _ _ _ h
    exact write_reg_ack st p r₀ st' tr hf hd
  obtain ⟨-, rfl⟩ | hk := hk
  · obtain ⟨r₀, hf⟩ := runEntry_witharg _ _ _ _ _ _ h
    exact memory_read_ack st p r₀ st' tr hf hd
  obtain ⟨-, rfl⟩ | hk := hk
  · obtain ⟨r₀, hf⟩ := runEntry_witharg _ _ _ _ _ _ h
    exact memory_write_ack st p r₀ st' tr hf hd
  obtain ⟨-, rfl⟩ | hk := hk
  · obtain ⟨r₀, hf⟩ := runEntry_witharg _ _ _ _ _ _ h
    exact single_step_ack st p r₀ st' tr hf hd
  obtain ⟨-, rfl⟩ | hk := hk
  · obtain ⟨r₀, hf⟩ := runEntry_noarg _ _ _ _ _ _ h
    exact single_step_sig_ack st r₀ st' tr hf hd
  obtain ⟨-, rfl⟩ | hk := hk
  · obtain ⟨r₀, hf⟩ := runEntry_witharg _ _ _ _ _ _ h
    exact cont_ack st p r₀ st' tr hf hd
  obtain ⟨-, rfl⟩ | hk := hk
  · rw [runEntry_ascii _ _ _ _ _ _ h]
    exact hd
  obtain ⟨-, rfl⟩ | hk := hk
  · obtain ⟨r₀, hf⟩ := runEntry_witharg _ _ _ _ _ _ h
    exact set_breakpoint_ack st p r₀ st' tr hf hd
  obtain ⟨-, rfl⟩ | hk := hk
  · obtain ⟨r₀, hf⟩ := runEntry_witharg _ _ _ _ _ _ h
    exact clear_breakpoint_ack st p r₀ st' tr hf hd
  obtain ⟨-, rfl⟩ | hk := hk
  · rw [runEntry_none _ _ _ _ _ h]
    exact hd
  obtain ⟨-, rfl⟩ | hk := hk
  · rw [runEntry_none _ _ _ _ _ h]
    exact hd
  obtain ⟨-, rfl⟩ | hk := hk
  · obtain ⟨r₀, hf⟩ := runEntry_witharg _ _ _ _ _ _ h
    exact cont_with_sig_ack st p r₀ st' tr hf hd
  obtain ⟨-, rfl⟩ | hk := hk
  · obtain ⟨r₀, hf⟩ := runEntry_noarg _ _ _ _ _ _ h
    exact cmd_not_supported_ack st r₀ st' tr hf hd
  obtain ⟨-, rfl⟩ := hk
  obtain ⟨r₀, hf⟩ := runEntry_witharg _ _ _ _ _ _ h
  exact memory_write_ack st p r₀ st' tr hf hd

theorem handle_packet_ack (st : RspState) (p : List Nat) (r : Option (List Nat))
    (st' : RspState) (tr : List MemAccess)
    (h : handle_packet st p = .ok (r, st', tr)) (hd : st.disable_ack = true) :
    st'.disable_ack = true := by
  unfold handle_packet at h
  simp only [] at h
  cases hfe : findEntry (p.take ((position? 58 p).getD p.length)) cmd_resp_map with
  | some e =>
    rw [hfe] at h
    exact table_entry_ack st p e (findEntry_mem _ _ _ hfe) r st' tr h hd
  | none =>
    rw [hfe] at h
    cases hfp : findEntryPre (p.take ((position? 58 p).getD p.length)) cmd_resp_map with
    | some e =>
      rw [hfp] at h
      exact table_entry_ack st p e (findEntryPre_mem _ _ _ hfp) r st' tr h hd
    | none =>
      rw [hfp] at h
      simp only [Except.ok.injEq, Prod.mk.injEq] at h
      rw [← h.2.1]
      exact hd

/-- In no-ack mode the parser acknowledges nothing. -/
theorem parse_rsp_packet_no_ack (s b ab : List Nat)
    (h : parse_rsp_packet true s = .ok (b, ab)) : ab = [] := by
  unfold parse_rsp_packet at h
  simp only [] at h
  repeat' split at h
  all_goals first
    | exact Except.noConfusion h
    | (simp only [Except.ok.injEq, Prod.mk.injEq, if_true] at h
       exact h.2.symm)
    | simp_all

theorem rsp_serve_one_ack (st : RspState) (f : List Nat) (st' : RspState)
    (ack sent : List Nat) (d : Bool)
    (h : rsp_serve_one st f = .ok (st', ack, sent, d)) (hd : st.disable_ack = true) :
    st'.disable_ack = true ∧ ack = [] := by
  unfold rsp_serve_one at h
  rw [hd] at h
  cases hp : parse_rsp_packet true f with
  | error e =>
    rw [hp] at h
    simp only [if_true, Except.ok.injEq, Prod.mk.injEq] at h
    exact ⟨h.1 ▸ hd, h.2.1.symm⟩
  | ok pr =>
    obtain ⟨pkt, ackB⟩ := pr
    have hab : ackB = [] := parse_rsp_packet_no_ack f pkt ackB hp
    rw [hp] at h
    simp only [] at h
    cases hh : handle_packet st pkt with
    | error e => rw [hh] at h; exact Except.noConfusion h
    | ok q =>
      obtain ⟨resp, st2, tr⟩ := q
      have hflag := handle_packet_ack st pkt resp st2 tr hh hd
      rw [hh] at h
      try simp only [] at h
      cases resp with
      | none =>
        simp only [Except.ok.injEq, Prod.mk.injEq] at h
        exact ⟨h.1 ▸ hflag, h.2.1 ▸ hab⟩
      | some rs =>
        by_cases hdet : rs = strBytes "detach"
        · simp only [hdet, eq_self_iff_true, if_true,
            Except.ok.injEq, Prod.mk.injEq] at h
          exact ⟨h.1 ▸ hflag, h.2.1 ▸ hab⟩
        · simp only [if_neg hdet, Except.ok.injEq, Prod.mk.injEq] at h
          exact ⟨h.1 ▸ hflag, h.2.1 ▸ hab⟩

/-- Once the flag is set, the serve loop emits no acknowledgment byte for
any later frame and the flag survives every operation. -/
theorem rsp_serve_ack (st : RspState) (frames : List (List Nat))
    (hd : st.disable_ack = true) :
    (rsp_serve st frames).1.disable_ack = true ∧
    ∀ a ∈ (rsp_serve st frames).2, a = [] := by
  induction frames generalizing st with
  | nil => exact ⟨hd, by simp [rsp_serve]⟩
  | cons f fs ih =>
    unfold rsp_serve
    cases hone : rsp_serve_one st f with
    | error e => exact ⟨hd, by simp⟩
    | ok q =>
      obtain ⟨st1, ack, sent, d⟩ := q
      obtain ⟨hflag, hack⟩ := rsp_serve_one_ack st f st1 ack sent d hone hd
      cases d
      · obtain ⟨ih1, ih2⟩ := ih st1 hflag
        show (rsp_serve st1 fs).1.disable_ack = true ∧
          ∀ a ∈ ack :: (rsp_serve st1 fs).2, a = []
        refine ⟨ih1, ?_⟩
        intro a ha
        rcases List.mem_cons.mp ha with rfl | ha
        · exact hack
        · exact ih2 a ha
      · show st1.disable_ack = true ∧ ∀ a ∈ [ack], a = []
        refine ⟨hflag, ?_⟩
        intro a ha
        rw [List.mem_singleton.mp ha]
        exact hack

/-- C9.  No-ack mode: processing the `QStartNoAckMode` frame replies
`OK` and sets `disable_ack`; from then on, for any sequence of later
inbound frames, no `+` or `-` acknowledgment byte is ever emitted and the
flag — which only `toggle_ack` ever writes, and only to `true` — is never
cleared by any later operation. -/
theorem C9_no_ack_mode (st : RspState) (frames : List (List Nat)) :
    ∃ st1 : RspState,
      rsp_serve_one st (format_rsp_packet (strBytes "QStartNoAckMode")) =
        .ok (st1, (if st.disable_ack then [] else [43]),
             format_rsp_packet (strBytes "OK"), false) ∧
      st1.disable_ack = true ∧
      (rsp_serve st1 frames).1.disable_ack = true ∧
      ∀ a ∈ (rsp_serve st1 frames).2, a = [] := by
  have hflag1 : (if st.disable_ack then st else
      { st with disable_ack := true }).disable_ack = true := by
    cases hds : st.disable_ack <;> simp [hds]
  refine ⟨if st.disable_ack then st else { st with disable_ack := true }, ?_,
    hflag1, (rsp_serve_ack _ frames hflag1).1, (rsp_serve_ack _ frames hflag1).2⟩
  obtain ⟨bp, dack, ckv, cv, tg⟩ := st
  cases dack <;> rfl

/-- C4 (amended).  Memory routing: an address whose bits [51:48] equal
`0x1` goes to CTM through the memory-engine adapter (`Rfpc0`, `Ctm`),
anything else to the DM routines; the upper 32 address bits are masked
off; CTM reads fetch `(len+3)/4` 32-bit words, byte-swap each word and
truncate to `len` bytes before hex emission, DM reads fetch `(len+7)/8`
64-bit words emitted as raw little-endian bytes and truncated; writes
zero-pad the payload to a multiple of 8 bytes, so a CTM write issues
`2*((len+7)/8)` 32-bit words — the 64-bit padding granularity, not the
claim's `(len+3)/4` — and a DM write issues `(len+7)/8` 64-bit words. -/
theorem C4_memory_routing (st : RspState) (a len : Nat) (data : List Nat)
    (ha : a < 2 ^ 64) (hlen : len < 2 ^ 64) (hlen0 : 0 < len)
    (hdata : data.length = len) :
    (memory_read st ((109 :: hexFixed 16 a) ++ 44 :: hexFixed 16 len) =
      if a / 2 ^ 48 % 16 = 1 then
        .ok ((((((mem_read st.target (a % 2 ^ 32) ((len + 3) / 4)).map swap_bytes32).map
                (toBytesLE 4)).flatten.take len).map (hexFixed 2)).flatten, st,
          [.memRead .Rfpc0 .Ctm .Bulk32 (a % 2 ^ 32) ((len + 3) / 4)])
      else
        .ok (((((rfpc_dbg_read_memory st.target (a % 2 ^ 32) ((len + 7) / 8)).map
                (toBytesLE 8)).flatten.take len).map (hexFixed 2)).flatten, st,
          [.dbgRead (a % 2 ^ 32) ((len + 7) / 8)])) ∧
    (∀ cmdByte, cmdByte = 77 ∨ cmdByte = 88 →
      memory_write st ((cmdByte :: hexFixed 16 a ++ 44 :: hexFixed 16 len) ++ 58 :: data) =
        if a / 2 ^ 48 % 16 = 1 then
          .ok (strBytes "OK",
            { st with target :=
                mem_write st.target (a % 2 ^ 32) (bytesToWords32 (padTo8 len data)) },
            [.memWrite .Rfpc0 .Ctm .Bulk32 (a % 2 ^ 32) (bytesToWords32 (padTo8 len data))])
        else
          .ok (strBytes "OK",
            { st with target :=
                rfpc_dbg_write_memory st.target (a % 2 ^ 32) (bytesToWords64 (padTo8 len data)) },
            [.dbgWrite (a % 2 ^ 32) (bytesToWords64 (padTo8 len data))])) ∧
    (bytesToWords64 (padTo8 len data)).length = (len + 7) / 8 ∧
    (bytesToWords32 (padTo8 len data)).length = 2 * ((len + 7) / 8) := by
  have h1616 : (16 : Nat) ^ 16 = 2 ^ 64 := by norm_num
  have hparsea : from_str_radix16? (hexFixed 16 a) = some a :=
    from_str_radix16?_hexFixed 16 a (by norm_num) (by norm_num) (by omega)
  have hparsel : from_str_radix16? (hexFixed 16 len) = some len :=
    from_str_radix16?_hexFixed 16 len (by norm_num) (by norm_num) (by omega)
  have hplen := padTo8_length len data hdata
  refine ⟨?_, ?_, ?_, ?_⟩
  · have hpre : ∀ b ∈ 109 :: hexFixed 16 a, b ≠ 44 := by
      intro b hb
      rcases List.mem_cons.mp hb with rfl | hb
      · omega
      · exact (hexFixed_avoid 16 a b hb).2.2.2.1
    have hsp := takeWhile_append_stop (109 :: hexFixed 16 a) (hexFixed 16 len) 44 hpre
    unfold memory_read
    simp only [any_append_self (109 :: hexFixed 16 a) (hexFixed 16 len) 44,
      eq_self_iff_true, if_true]
    rw [hsp.1, hsp.2]
    simp only [List.drop_one, List.tail_cons, hparsea, hparsel]
    rw [ctm_bit_eq, mask32_eq]
  · intro cmdByte hcmd
    have hpre : ∀ b ∈ cmdByte :: hexFixed 16 a ++ 44 :: hexFixed 16 len, b ≠ 58 := by
      intro b hb
      rcases List.mem_cons.mp hb with rfl | hb
      · omega
      · rcases List.mem_append.mp hb with hb | hb
        · exact (hexFixed_avoid 16 a b hb).2.2.2.2.1
        · rcases List.mem_cons.mp hb with rfl | hb
          · omega
          · exact (hexFixed_avoid 16 len b hb).2.2.2.2.1
    have hsplit := position?_split (cmdByte :: hexFixed 16 a ++ 44 :: hexFixed 16 len)
      data 58 hpre
    have hsp2 := takeWhile_append_stop (hexFixed 16 a) (hexFixed 16 len) 44
      (fun b hb => (hexFixed_avoid 16 a b hb).2.2.2.1)
    unfold memory_write
    simp only [List.cons_append] at hsplit ⊢
    rw [hsplit.1]
    simp only [hsplit.2.1, hsplit.2.2, List.drop_one, List.tail_cons,
      any_append_self (hexFixed 16 a) (hexFixed 16 len) 44, eq_self_iff_true, if_true]
    rw [hsp2.1, hsp2.2]
    simp only [List.drop_one, List.tail_cons, hparsea, hparsel]
    rw [if_neg (by omega : ¬ len = 0), ctm_bit_eq, mask32_eq]
    rw [show (if len % 8 = 0 then data else data ++ List.replicate (8 - len % 8) 0) =
        padTo8 len data from rfl]
    by_cases hc : a / 2 ^ 48 % 16 = 1
    · rw [if_pos hc, if_pos hc, if_pos (by omega : (padTo8 len data).length % 4 = 0)]
    · rw [if_neg hc, if_neg hc, if_pos (by omega : (padTo8 len data).length % 8 = 0)]
  · rw [bytesToWords64_length, hplen]
    omega
  · rw [bytesToWords32_length, hplen]
    omega

theorem C4_memory_routing_witness :
    ((0x1000 : Nat) < 2 ^ 64) ∧ ((8 : Nat) < 2 ^ 64) ∧ ((0 : Nat) < 8) ∧
    (([10, 11, 12, 13, 14, 15, 16, 17] : List Nat).length = 8) ∧
    (memory_read st0 ((109 :: hexFixed 16 0x1000) ++ 44 :: hexFixed 16 8) =
      if (0x1000 : Nat) / 2 ^ 48 % 16 = 1 then
        .ok ((((((mem_read st0.target (0x1000 % 2 ^ 32) ((8 + 3) / 4)).map swap_bytes32).map
                (toBytesLE 4)).flatten.take 8).map (hexFixed 2)).flatten, st0,
          [.memRead .Rfpc0 .Ctm .Bulk32 (0x1000 % 2 ^ 32) ((8 + 3) / 4)])
      else
        .ok (((((rfpc_dbg_read_memory st0.target (0x1000 % 2 ^ 32) ((8 + 7) / 8)).map
                (toBytesLE 8)).flatten.take 8).map (hexFixed 2)).flatten, st0,
          [.dbgRead (0x1000 % 2 ^ 32) ((8 + 7) / 8)])) ∧
    (∀ cmdByte, cmdByte = 77 ∨ cmdByte = 88 →
      memory_write st0
          ((cmdByte :: hexFixed 16 0x1000 ++ 44 :: hexFixed 16 8) ++
            58 :: [10, 11, 12, 13, 14, 15, 16, 17]) =
        if (0x1000 : Nat) / 2 ^ 48 % 16 = 1 then
          .ok (strBytes "OK",
            { st0 with target :=
                mem_write st0.target (0x1000 % 2 ^ 32) (bytesToWords32 (padTo8 8 [10, 11, 12, 13, 14, 15, 16, 17])) },
            [.memWrite .Rfpc0 .Ctm .Bulk32 (0x1000 % 2 ^ 32)
              (bytesToWords32 (padTo8 8 [10, 11, 12, 13, 14, 15, 16, 17]))])
        else
          .ok (strBytes "OK",
            { st0 with target :=
                rfpc_dbg_write_memory st0.target (0x1000 % 2 ^ 32) (bytesToWords64 (padTo8 8 [10, 11, 12, 13, 14, 15, 16, 17])) },
            [.dbgWrite (0x1000 % 2 ^ 32)
              (bytesToWords64 (padTo8 8 [10, 11, 12, 13, 14, 15, 16, 17]))])) ∧
    (bytesToWords64 (padTo8 8 [10, 11, 12, 13, 14, 15, 16, 17])).length = (8 + 7) / 8 ∧
    (bytesToWords32 (padTo8 8 [10, 11, 12, 13, 14, 15, 16, 17])).length = 2 * ((8 + 7) / 8) :=
  ⟨by norm_num, by norm_num, by norm_num, by decide,
   C4_memory_routing st0 0x1000 8 [10, 11, 12, 13, 14, 15, 16, 17]
     (by norm_num) (by norm_num) (by norm_num) (by decide)⟩

/-- C4, counterexample to the claim as stated: the `X` write of a single
4-byte word to the CTM address `0x0001000000001000` issues **two** 32-bit
words (the payload word and a zero pad word), where the claim's
"length rounded up to the word size" demands `(4+3)/4 = 1`. -/
theorem C4_ctm_write_rounding_counterexample :
    (memory_write st0 (strBytes "X0001000000001000,4:" ++ [0xAA, 0xBB, 0xCC, 0xDD])).map
        (fun x => x.2.2) =
      .ok [.memWrite .Rfpc0 .Ctm .Bulk32 0x1000 [0xDDCCBBAA, 0]] ∧
    ([0xDDCCBBAA, 0] : List Nat).length ≠ claimedCtmWriteWordCount 4 := by
  constructor
  · rfl
  · decide

theorem C10_zero_length_write_noop_witness :
    ((77 : Nat) = 77 ∨ (77 : Nat) = 88) ∧ ((0x2000 : Nat) < 2 ^ 64) ∧
    memory_write st0 ((77 :: hexFixed 16 0x2000 ++ [44, 48]) ++ 58 :: []) =
      .ok (strBytes "OK", st0, []) :=
  ⟨Or.inl rfl, by norm_num,
   C10_zero_length_write_noop st0 77 0x2000 [] (Or.inl rfl) (by norm_num)⟩

theorem C5_framing_roundtrip_witness :
    (∀ x ∈ strBytes "OK", x < 256 ∧ x ≠ 36 ∧ x ≠ 35 ∧ x ≠ 125 ∧ x ≠ 42) ∧
    ((∀ d : Bool,
      parse_rsp_packet d (format_rsp_packet (strBytes "OK")) =
        .ok (strBytes "OK", if d then [] else [43])) ∧
    format_rsp_packet (strBytes "OK") =
      36 :: strBytes "OK" ++ 35 :: hexFixed 2 ((strBytes "OK").sum % 256) ∧
    (hexFixed 2 (calculate_rsp_checksum (strBytes "OK"))).length = 2 ∧
    (∀ c ∈ hexFixed 2 (calculate_rsp_checksum (strBytes "OK")),
      (48 ≤ c ∧ c ≤ 57) ∨ (97 ≤ c ∧ c ≤ 102)) ∧
    unescape [125, 36 ^^^ 32] = [36]) :=
  ⟨by decide, C5_framing_roundtrip (strBytes "OK") 36 (by decide)⟩

end NfpRsp

